import Mathlib

/-!
Verification of the LightUpPi-Alarm alarm core (LightUpAlarm package).

Shallow embedding of:
  * `AlarmItem` (src/LightUpAlarm/AlarmItem.py): the alarm record, its sanitising
    field setters, the `__new__` constructor, `minutes_to_alert` and `diff_alarm`;
  * `AlarmDb.edit_alarm` (src/LightUpAlarm/AlarmDb.py): field-by-field persisted edit;
  * `AlarmManager` (src/LightUpAlarm/AlarmManager.py): the thread list, the
    reconciliation `__set_alarm_thread`, `__stop_alarm_thread`, `is_alarm_running`
    and `check_threads_state`.

Python integers are embedded as `Int` (or `Nat` for the stored, always-non-negative
fields); Python `None` as `Option.none`.  The `AlarmThread` class is not among the
provided sources, so it is modelled from the spec (see its doc comment below).
-/

namespace LightUpPi

/-- The alarm record held by `AlarmItem` (src/LightUpAlarm/AlarmItem.py).
Fields mirror the instance attributes set in `__new__`: the stored hour/minute are
always the last accepted (hence non-negative) values, ids and timestamp are `none`
until assigned, and the seven repeat flags are kept in Monday..Sunday order. -/
structure AlarmItem where
  id_ : Option Nat
  hour : Nat
  minute : Nat
  monday : Bool
  tuesday : Bool
  wednesday : Bool
  thursday : Bool
  friday : Bool
  saturday : Bool
  sunday : Bool
  enabled : Bool
  label : String
  timestamp : Option Nat
  station_id : Option Nat
deriving DecidableEq, Repr, Inhabited

namespace AlarmItem

/-- The freshly allocated instance at the top of `AlarmItem.__new__`, before the
accessors run: id None, time 00:00, disabled, all repeat flags False, empty label,
no timestamp, no station. -/
def blank : AlarmItem :=
  { id_ := none, hour := 0, minute := 0,
    monday := false, tuesday := false, wednesday := false, thursday := false,
    friday := false, saturday := false, sunday := false,
    enabled := false, label := "", timestamp := none, station_id := none }

/-- `AlarmItem.__set_hour`: accepts an integer in 0..23, otherwise keeps the
previous value (the wrong-type branch also keeps the previous value). -/
def set_hour (a : AlarmItem) (new_hour : Int) : AlarmItem :=
  if 0 ≤ new_hour ∧ new_hour < 24 then { a with hour := new_hour.toNat } else a

/-- `AlarmItem.__set_minute`: accepts an integer in 0..59, otherwise keeps the
previous value. -/
def set_minute (a : AlarmItem) (new_minute : Int) : AlarmItem :=
  if 0 ≤ new_minute ∧ new_minute < 60 then { a with minute := new_minute.toNat } else a

/-- `AlarmItem.__set_repeat`: accepts a list of exactly 7 booleans and assigns them
to the weekday flags in Monday..Sunday order; any other length keeps the previous
values. -/
def set_repeat (a : AlarmItem) (new_repeat : List Bool) : AlarmItem :=
  if new_repeat.length = 7 then
    { a with monday := new_repeat.getD 0 false, tuesday := new_repeat.getD 1 false,
             wednesday := new_repeat.getD 2 false, thursday := new_repeat.getD 3 false,
             friday := new_repeat.getD 4 false, saturday := new_repeat.getD 5 false,
             sunday := new_repeat.getD 6 false }
  else a

/-- `AlarmItem.__set_enabled`: accepts a boolean; `none` stands for Python's `None`
(or any non-boolean), which the `isinstance` check rejects, keeping the previous
value. -/
def set_enabled (a : AlarmItem) (new_enabled : Option Bool) : AlarmItem :=
  match new_enabled with
  | some b => { a with enabled := b }
  | none => a

/-- `AlarmItem.__set_label`: `str()` accepts every value, so the label is always
assigned. -/
def set_label (a : AlarmItem) (new_label : String) : AlarmItem :=
  { a with label := new_label }

/-- `AlarmItem.__set_id`: accepts a non-negative integer, otherwise keeps the
previous value. -/
def set_id (a : AlarmItem) (new_id : Int) : AlarmItem :=
  if 0 ≤ new_id then { a with id_ := some new_id.toNat } else a

/-- `AlarmItem.__set_timestamp`: accepts a non-negative integer, otherwise keeps
the previous value. -/
def set_timestamp (a : AlarmItem) (new_timestamp : Int) : AlarmItem :=
  if 0 ≤ new_timestamp then { a with timestamp := some new_timestamp.toNat } else a

/-- `AlarmItem.__set_station_id`: accepts a non-negative integer, otherwise keeps
the previous value. -/
def set_station_id (a : AlarmItem) (new_station_id : Int) : AlarmItem :=
  if 0 ≤ new_station_id then { a with station_id := some new_station_id.toNat } else a

/-- `AlarmItem.repeat` property getter: the 7-tuple of weekday flags in
Monday..Sunday order. -/
def repeatList (a : AlarmItem) : List Bool :=
  [a.monday, a.tuesday, a.wednesday, a.thursday, a.friday, a.saturday, a.sunday]

/-- Tuple indexing `self.repeat[d]` for `d` in 0..6 (Monday = 0).  Indices ≥ 7
would raise `IndexError` in Python; here they default to `false` and are never
reached under the claims' weekday hypotheses. -/
def repeatAt (a : AlarmItem) (d : Nat) : Bool :=
  a.repeatList.getD d false

/-- `AlarmItem.any_day_enabled`: true when some weekday repeat flag is set. -/
def any_day_enabled (a : AlarmItem) : Bool :=
  a.monday || a.tuesday || a.wednesday || a.thursday || a.friday || a.saturday || a.sunday

/-- `AlarmItem.is_active`: enabled and at least one repeat weekday set. -/
def is_active (a : AlarmItem) : Bool :=
  a.enabled && a.any_day_enabled

/-- Comparison of an `Option Nat` field against the integer that was fed to its
setter, as in the `__new__` validity checks (`instance.timestamp != timestamp`). -/
def optNatEqInt : Option Nat → Int → Bool
  | some v, t => (v : Int) == t
  | none, _ => false

/-- `AlarmItem.__new__`: initialises a blank instance, pushes every input through
the sanitising setters, then compares each stored field with its input; if any
comparison fails the constructor returns `None` instead of the instance.
`none` arguments model Python's `None` defaults: for `timestamp`, `alarm_id` and
`station_id` the setter is only invoked on a non-`None` value, while `enabled`
is always pushed through its setter and only the final comparison is guarded by
`enabled is not None`. -/
def new (hour minute : Int) (days : List Bool) (enabled : Option Bool)
    (label : String) (timestamp alarm_id station_id : Option Int) : Option AlarmItem :=
  let i1 := set_hour blank hour
  let i2 := set_minute i1 minute
  let i3 := set_repeat i2 days
  let i4 := set_enabled i3 enabled
  let i5 := set_label i4 label
  let i6 := match timestamp with
    | some t => set_timestamp i5 t
    | none => i5
  let i7 := match alarm_id with
    | some x => set_id i6 x
    | none => i6
  let i8 := match station_id with
    | some x => set_station_id i7 x
    | none => i7
  let hourOk := (i8.hour : Int) == hour
  let minuteOk := (i8.minute : Int) == minute
  let daysOk := i8.repeatList == days
  let enabledOk := match enabled with
    | some b => i8.enabled == b
    | none => true
  let labelOk := i8.label == label
  let tsOk := match timestamp with
    | some t => optNatEqInt i8.timestamp t
    | none => true
  let idOk := match alarm_id with
    | some t => optNatEqInt i8.id_ t
    | none => true
  let stOk := match station_id with
    | some t => optNatEqInt i8.station_id t
    | none => true
  if hourOk && minuteOk && daysOk && enabledOk && labelOk && tsOk && idOk && stOk then
    some i8
  else
    none

/-- The `while day != weekday` loop of `AlarmItem.minutes_to_alert`: walks the
week forward from the day after the reference weekday, wrapping past Sunday, and
returns on the first repeat-flagged day.  The Python loop makes at most 6
iterations (after 6 steps `day` is back to `weekday`), so fuel 7 is never
exhausted when `weekday ≤ 6`. -/
def scan_days (a : AlarmItem) (weekday : Nat) (alarmDM refDM : Int) :
    Nat → Nat → Nat → Option Int
  | 0, _, _ => none
  | fuel + 1, day, day_count =>
    if day = weekday then none
    else if a.repeatAt day then
      if refDM ≤ alarmDM then
        some ((day_count : Int) * 1440 + (alarmDM - refDM))
      else
        some ((day_count : Int) * 1440 - (refDM - alarmDM))
    else
      scan_days a weekday alarmDM refDM fuel (if day + 1 > 6 then 0 else day + 1) (day_count + 1)

/-- `AlarmItem.minutes_to_alert`: minutes from the reference time/weekday to the
first trigger of this alarm, or `none` when no repeat day is flagged.
First corner case: same day, alarm not yet passed; then the forward week scan;
second corner case: same day, alarm already passed (wraps a full week). -/
def minutes_to_alert (a : AlarmItem) (hour minute weekday : Nat) : Option Int :=
  let alarm_day_minute : Int := (a.minute : Int) + (a.hour : Int) * 60
  let ref_day_minute : Int := (minute : Int) + (hour : Int) * 60
  if a.repeatAt weekday ∧ ref_day_minute ≤ alarm_day_minute then
    some (alarm_day_minute - ref_day_minute)
  else
    match scan_days a weekday alarm_day_minute ref_day_minute 7
        (if weekday + 1 > 6 then 0 else weekday + 1) 1 with
    | some r => some r
    | none =>
      if a.repeatAt weekday ∧ alarm_day_minute < ref_day_minute then
        some (1440 * 7 - ref_day_minute + alarm_day_minute)
      else
        none

/-- `str(id)` as used by the `diff_alarm` label format (`%s` of `None` or an int). -/
def idStr : Option Nat → String
  | none => "None"
  | some n => toString n

/-- `"%+d" % d` as used by the `diff_alarm` label format. -/
def signedStr (d : Int) : String :=
  if 0 ≤ d then "+" ++ toString d else toString d

/-- `AlarmItem.diff_alarm`: a new alarm shifted by `min_difference` minutes
(restricted to -59..59; anything else returns `None`).  The Python `while`
normalisation loops run at most once each because the stored minute is < 60 and
the shift is < 60 in absolute value (and `% 60` / `% 24` land in range after one
step even for a denormalised record), so each loop is written as one conditional
step.  Day flags are rotated when the shift crosses midnight, and the result is
built through the validating constructor with a fresh label and no id/timestamp. -/
def diff_alarm (a : AlarmItem) (min_difference : Int) : Option AlarmItem :=
  if ¬(-60 < min_difference ∧ min_difference < 60) then none
  else
    let nm0 : Int := (a.minute : Int) + min_difference
    let p1 : Int × Int :=
      if 60 ≤ nm0 then (nm0 % 60, 1)
      else if nm0 < 0 then (nm0 + 60, -1)
      else (nm0, 0)
    let new_minute := p1.1
    let extra_hours := p1.2
    let nh0 : Int := (a.hour : Int) + extra_hours
    let p2 : Int × Int :=
      if 24 ≤ nh0 then (nh0 % 24, 1)
      else if nh0 < 0 then (nh0 + 24, -1)
      else (nh0, 0)
    let new_hour := p2.1
    let extra_days := p2.2
    let days0 := a.repeatList
    let new_days :=
      if extra_days < 0 then
        days0.tail ++ days0.take 1
      else if 0 < extra_days then
        days0.drop (days0.length - extra_days.toNat) ++
          days0.take (days0.length - extra_days.toNat)
      else days0
    let new_label :=
      a.label ++ " (Alarm " ++ idStr a.id_ ++ " " ++ signedStr min_difference ++ "min)"
    AlarmItem.new new_hour new_minute new_days (some a.enabled) new_label none none none

end AlarmItem

/-- Weekly trigger instants of an alarm: for each flagged day `d` (Monday = 0),
the minute-of-week `d*1440 + hour*60 + minute`.  Observation used to state the
`diff_alarm` shift property. -/
def instants (a : AlarmItem) : List Int :=
  (List.range 7).filterMap fun d =>
    if a.repeatAt d then
      some ((d : Int) * 1440 + (a.hour : Int) * 60 + (a.minute : Int))
    else none

/-- Modelled from the spec: the repository's `AlarmThread` class (the spec's
`AlarmTimer`, §4.2) is not among the provided sources — only its callers in
`AlarmManager` are.  Per the spec it wraps one alarm-record snapshot and a
liveness state; `edit_alarm` "replaces the held snapshot"; `get_id` returns the
held record's id; `stop` requests cooperative cancellation, which in this model
always succeeds within the scheduler's bounded wait.  `instanceId` stands for
Python object identity, so that replacing a timer (a new `AlarmThread` object)
is distinguishable from mutating one in place. -/
structure AlarmThread where
  instanceId : Nat
  alarm : AlarmItem
  alive : Bool
deriving DecidableEq, Repr, Inhabited

namespace AlarmThread

/-- Modelled from the spec: `AlarmThread.get_id` returns the identity of the held
alarm snapshot. -/
def getId (t : AlarmThread) : Option Nat :=
  t.alarm.id_

/-- Modelled from the spec: `AlarmThread.edit_alarm` replaces the held snapshot in
place (same thread object, same liveness). -/
def edit_alarm (t : AlarmThread) (a : AlarmItem) : AlarmThread :=
  { t with alarm := a }

end AlarmThread

/-- State of an `AlarmManager` together with its storage: the persisted alarm
rows (`db`, in table order), the private `__alarm_threads` list, and a supply of
fresh object identities for newly constructed `AlarmThread`s. -/
structure MgrState where
  db : List AlarmItem
  threads : List AlarmThread
  nextToken : Nat
deriving DecidableEq, Repr

namespace AlarmManager

open AlarmItem

/-- The loop body of `AlarmManager.__stop_alarm_thread`.  The Python `for`
iterates over `self.__alarm_threads` by index while `remove` shortens the same
list: after the element at the iterator's position is removed, the iterator's
next step lands past the removed element's successor, so that successor is
retained unexamined.  In this model a stopped thread always dies within the 3 s
bound, so every examined match is removed and `success` becomes true. -/
def stop_thread_loop (alarm_id : Option Nat) :
    List AlarmThread → Bool → Bool × List AlarmThread
  | [], success => (success, [])
  | t :: rest, success =>
    if alarm_id == t.getId then
      match rest with
      | [] => (true, [])
      | u :: rest2 =>
        let r := stop_thread_loop alarm_id rest2 true
        (r.1, u :: r.2)
    else
      let r := stop_thread_loop alarm_id rest success
      (r.1, t :: r.2)

/-- `AlarmManager.__stop_alarm_thread`: stop and remove the threads registered
under `alarm_id`; returns whether a stop was confirmed. -/
def stop_alarm_thread (s : MgrState) (alarm_id : Option Nat) : Bool × MgrState :=
  let r := stop_thread_loop alarm_id s.threads false
  (r.1, { s with threads := r.2 })

/-- The `for i, alarm_thread in enumerate(...)` loop of
`AlarmManager.__set_alarm_thread`, walking the thread list with `break` at the
first id match; `k` is the index of the current element within `s.threads`.
On a match: an inactive record stops its thread; an active record has the live
thread's snapshot edited in place, and only a thread found dead is replaced by a
freshly started one (the returned `thread_up` reads the old object's liveness).
On no match (`for`/`else`): an active record gets a new started thread appended. -/
def set_loop (s : MgrState) (alarm : AlarmItem) : Nat → List AlarmThread → Bool × MgrState
  | _, [] =>
    if alarm.is_active then
      let tNew : AlarmThread := ⟨s.nextToken, alarm, true⟩
      (true, { s with threads := s.threads ++ [tNew], nextToken := s.nextToken + 1 })
    else
      (false, s)
  | k, t :: rest =>
    if alarm.id_ == t.getId then
      if alarm.is_active = false then
        (false, (stop_alarm_thread s alarm.id_).2)
      else
        let t1 := t.edit_alarm alarm
        if t1.alive = false then
          let tNew : AlarmThread := ⟨s.nextToken, alarm, true⟩
          (false, { s with threads := s.threads.set k tNew, nextToken := s.nextToken + 1 })
        else
          (true, { s with threads := s.threads.set k t1 })
    else
      set_loop s alarm (k + 1) rest

/-- `AlarmManager.__set_alarm_thread`: reconcile one record against the thread
list; returns (thread_up, new state). -/
def set_alarm_thread (s : MgrState) (alarm : AlarmItem) : Bool × MgrState :=
  set_loop s alarm 0 s.threads

/-- `AlarmManager.is_alarm_running`: liveness of the first thread registered
under the given id, false when none is. -/
def is_alarm_running (s : MgrState) (alarm_id : Option Nat) : Bool :=
  match s.threads.find? (fun t => t.getId == alarm_id) with
  | some t => t.alive
  | none => false

/-- The per-record loop of `AlarmManager.check_threads_state`: an active record
that is not running gets `__set_alarm_thread`, an inactive one that is running
gets `__stop_alarm_thread`; `previously_correct` drops to false on either
correction, and `running_counter` counts the active records. -/
def check_loop (prev : Bool) (cnt : Nat) (s : MgrState) :
    List AlarmItem → Bool × Nat × MgrState
  | [] => (prev, cnt, s)
  | alarm :: rest =>
    if alarm.is_active then
      if is_alarm_running s alarm.id_ then
        check_loop prev (cnt + 1) s rest
      else
        check_loop false (cnt + 1) (set_alarm_thread s alarm).2 rest
    else
      if is_alarm_running s alarm.id_ then
        check_loop false cnt (stop_alarm_thread s alarm.id_).2 rest
      else
        check_loop prev cnt s rest

/-- The orphan-cleanup loop of `AlarmManager.check_threads_state`: a `for` over
`self.__alarm_threads` whose body (the inner `for`/`else`) stops any thread whose
id matches no persisted record — which removes elements from the very list being
iterated, so after each removal the iterator skips one element.  `k` is the
iterator position; the loop runs at most `threads.length`-at-entry iterations
(the index grows by one per step and the list never grows), which bounds the
fuel. -/
def orphan_loop (all_alarms : List AlarmItem) : Nat → Nat → MgrState → MgrState
  | 0, _, s => s
  | fuel + 1, k, s =>
    if k < s.threads.length then
      let t := s.threads.getD k ⟨0, AlarmItem.blank, false⟩
      if all_alarms.any (fun a => a.id_ == t.getId) then
        orphan_loop all_alarms fuel (k + 1) s
      else
        orphan_loop all_alarms fuel (k + 1) (stop_alarm_thread s t.getId).2
    else s

/-- `AlarmManager.check_threads_state`: audit every persisted record against the
running threads (repairing mismatches), then, when the thread count differs from
the expected count, stop the orphaned threads; returns whether everything was
already correct before the call. -/
def check_threads_state (s : MgrState) : Bool × MgrState :=
  let all_alarms := s.db
  let r := check_loop true 0 s all_alarms
  let prev := r.1
  let cnt := r.2.1
  let s1 := r.2.2
  if s1.threads.length ≠ cnt then
    (false, orphan_loop all_alarms s1.threads.length 0 s1)
  else
    (prev, s1)

end AlarmManager

/-- One row update of the dataset table, as performed by each
`alarms_table.update(dict(id=alarm_id, ...), ['id'])` call inside
`AlarmDb.edit_alarm`: rewrites the fields of every row whose primary key matches
and reports whether some row matched. -/
def dbRowUpdate (rows : List AlarmItem) (alarm_id : Nat) (f : AlarmItem → AlarmItem) :
    Bool × List AlarmItem :=
  (rows.any (fun a => a.id_ == some alarm_id),
   rows.map (fun a => if a.id_ == some alarm_id then f a else a))

/-- The "Parse hour variable" block of `AlarmDb.edit_alarm`: when an hour is
supplied it is validated through `AlarmItem(hour, 0)`; a valid hour is written
to the table at once, an invalid one clears the success flag. -/
def edit_hour_step (alarm_id : Nat) (hour : Option Int) (st : Bool × List AlarmItem) :
    Bool × List AlarmItem :=
  match hour with
  | none => st
  | some h =>
    match AlarmItem.new h 0 (List.replicate 7 false) (some true) "" none none none with
    | some item =>
      let r := dbRowUpdate st.2 alarm_id (fun a => { a with hour := item.hour })
      (st.1 && r.1, r.2)
    | none => (false, st.2)

/-- The "Parse minute variable" block of `AlarmDb.edit_alarm` (validation via
`AlarmItem(0, minute)`). -/
def edit_minute_step (alarm_id : Nat) (minute : Option Int) (st : Bool × List AlarmItem) :
    Bool × List AlarmItem :=
  match minute with
  | none => st
  | some m =>
    match AlarmItem.new 0 m (List.replicate 7 false) (some true) "" none none none with
    | some item =>
      let r := dbRowUpdate st.2 alarm_id (fun a => { a with minute := item.minute })
      (st.1 && r.1, r.2)
    | none => (false, st.2)

/-- The "Parse days variable" block of `AlarmDb.edit_alarm` (validation via
`AlarmItem(0, 0, days=days)`). -/
def edit_days_step (alarm_id : Nat) (days : Option (List Bool)) (st : Bool × List AlarmItem) :
    Bool × List AlarmItem :=
  match days with
  | none => st
  | some ds =>
    match AlarmItem.new 0 0 ds (some true) "" none none none with
    | some item =>
      let r := dbRowUpdate st.2 alarm_id (fun a =>
        { a with monday := item.monday, tuesday := item.tuesday,
                 wednesday := item.wednesday, thursday := item.thursday,
                 friday := item.friday, saturday := item.saturday,
                 sunday := item.sunday })
      (st.1 && r.1, r.2)
    | none => (false, st.2)

/-- The "Parse enabled variable" block of `AlarmDb.edit_alarm` (validation via
`AlarmItem(0, 0, enabled=enabled)`). -/
def edit_enabled_step (alarm_id : Nat) (enabled : Option Bool) (st : Bool × List AlarmItem) :
    Bool × List AlarmItem :=
  match enabled with
  | none => st
  | some e =>
    match AlarmItem.new 0 0 (List.replicate 7 false) (some e) "" none none none with
    | some item =>
      let r := dbRowUpdate st.2 alarm_id (fun a => { a with enabled := item.enabled })
      (st.1 && r.1, r.2)
    | none => (false, st.2)

/-- The "Parse label variable" block of `AlarmDb.edit_alarm` (validation via
`AlarmItem(0, 0, label=label)`). -/
def edit_label_step (alarm_id : Nat) (label : Option String) (st : Bool × List AlarmItem) :
    Bool × List AlarmItem :=
  match label with
  | none => st
  | some l =>
    match AlarmItem.new 0 0 (List.replicate 7 false) (some true) l none none none with
    | some item =>
      let r := dbRowUpdate st.2 alarm_id (fun a => { a with label := item.label })
      (st.1 && r.1, r.2)
    | none => (false, st.2)

/-- The station-id block of `AlarmDb.edit_alarm` (validation via
`AlarmItem(0, 0, station_id=station_id)`). -/
def edit_station_step (alarm_id : Nat) (station_id : Option Int) (st : Bool × List AlarmItem) :
    Bool × List AlarmItem :=
  match station_id with
  | none => st
  | some sid =>
    match AlarmItem.new 0 0 (List.replicate 7 false) (some true) "" none none (some sid) with
    | some item =>
      let r := dbRowUpdate st.2 alarm_id (fun a => { a with station_id := item.station_id })
      (st.1 && r.1, r.2)
    | none => (false, st.2)

/-- `AlarmDb.edit_alarm`: each supplied field is validated on its own through the
`AlarmItem` constructor and, when valid, written to the table immediately; an
invalid field only clears the overall `success` flag.  The timestamp (the
caller's clock `now`) is written only when every preceding step succeeded. -/
def edit_alarm_db (rows : List AlarmItem) (alarm_id : Nat)
    (hour minute : Option Int) (days : Option (List Bool)) (enabled : Option Bool)
    (label : Option String) (station_id : Option Int) (now : Nat) :
    Bool × List AlarmItem :=
  let st :=
    edit_station_step alarm_id station_id
      (edit_label_step alarm_id label
        (edit_enabled_step alarm_id enabled
          (edit_days_step alarm_id days
            (edit_minute_step alarm_id minute
              (edit_hour_step alarm_id hour (true, rows))))))
  if st.1 then
    dbRowUpdate st.2 alarm_id (fun a => { a with timestamp := some now })
  else
    st

/-! ### Helper lemmas -/

/-- Symmetry of `==` on `Option Nat` (both id-comparison orders appear in the
manager code). -/
theorem optBeq_comm (x y : Option Nat) : (x == y) = (y == x) := by
  cases h : x == y
  · symm
    rw [beq_eq_false_iff_ne] at h ⊢
    exact fun e => h e.symm
  · symm
    rw [beq_iff_eq] at h ⊢
    exact h.symm

/-- Tuple indexing past the 7 flags yields the modelling default. -/
theorem repeatAt_ge_seven (a : AlarmItem) (d : Nat) (hd : 7 ≤ d) :
    a.repeatAt d = false := by
  have : a.repeatList.length ≤ d := by
    simp only [AlarmItem.repeatList, List.length_cons, List.length_nil]
    omega
  simp [AlarmItem.repeatAt, List.getD, List.getElem?_eq_none this]

/-- The seven flag values of `repeatAt` on indices 0..6. -/
theorem repeatAt_lt_seven (a : AlarmItem) :
    a.repeatAt 0 = a.monday ∧ a.repeatAt 1 = a.tuesday ∧ a.repeatAt 2 = a.wednesday ∧
    a.repeatAt 3 = a.thursday ∧ a.repeatAt 4 = a.friday ∧ a.repeatAt 5 = a.saturday ∧
    a.repeatAt 6 = a.sunday := by
  simp [AlarmItem.repeatAt, AlarmItem.repeatList, List.getD]

/-- A set repeat flag yields a flagged weekday index below 7. -/
theorem exists_flag_of_any_day (a : AlarmItem) (h : a.any_day_enabled = true) :
    ∃ d, d < 7 ∧ a.repeatAt d = true := by
  obtain ⟨e0, e1, e2, e3, e4, e5, e6⟩ := repeatAt_lt_seven a
  simp only [AlarmItem.any_day_enabled, Bool.or_eq_true] at h
  rcases h with ((((((h | h) | h) | h) | h) | h) | h)
  · exact ⟨0, by omega, by rw [e0, h]⟩
  · exact ⟨1, by omega, by rw [e1, h]⟩
  · exact ⟨2, by omega, by rw [e2, h]⟩
  · exact ⟨3, by omega, by rw [e3, h]⟩
  · exact ⟨4, by omega, by rw [e4, h]⟩
  · exact ⟨5, by omega, by rw [e5, h]⟩
  · exact ⟨6, by omega, by rw [e6, h]⟩

/-! ### `minutes_to_alert` (claims C1, C7, C8) -/

/-- Any `some` result of the week scan lies in [0, 10079]: the scan starts at
`day_count = 1` and must stop before `day_count` reaches 7 because after six
steps `day` is back at `weekday`. -/
theorem scan_days_sound (a : AlarmItem) (w : Nat) (aDM rDM : Int)
    (hw : w ≤ 6) (ha0 : 0 ≤ aDM) (ha1 : aDM ≤ 1439) (hr0 : 0 ≤ rDM) (hr1 : rDM ≤ 1439) :
    ∀ fuel day dc r, day = (w + dc) % 7 → 1 ≤ dc → dc + fuel = 8 →
      AlarmItem.scan_days a w aDM rDM fuel day dc = some r → 0 ≤ r ∧ r ≤ 10079 := by
  intro fuel
  induction fuel with
  | zero => intro day dc r _ _ _ hs; exact absurd hs (by simp [AlarmItem.scan_days])
  | succ n ih =>
    intro day dc r hday hdc hsum hs
    rw [AlarmItem.scan_days] at hs
    by_cases hdw : day = w
    · rw [if_pos hdw] at hs; exact absurd hs (by simp)
    · rw [if_neg hdw] at hs
      have hdc6 : dc ≤ 6 := by omega
      by_cases hrep : a.repeatAt day = true
      · rw [if_pos hrep] at hs
        by_cases hle : rDM ≤ aDM
        · rw [if_pos hle] at hs
          have : (dc : Int) * 1440 + (aDM - rDM) = r := by
            have := Option.some.inj hs; omega
          have hdcI : (dc : Int) ≤ 6 := by exact_mod_cast hdc6
          have hdcI1 : (1 : Int) ≤ (dc : Int) := by exact_mod_cast hdc
          constructor <;> nlinarith
        · rw [if_neg hle] at hs
          have : (dc : Int) * 1440 - (rDM - aDM) = r := by
            have := Option.some.inj hs; omega
          have hdcI : (dc : Int) ≤ 6 := by exact_mod_cast hdc6
          have hdcI1 : (1 : Int) ≤ (dc : Int) := by exact_mod_cast hdc
          constructor <;> nlinarith
      · rw [if_neg hrep] at hs
        have hday2 : (if day + 1 > 6 then 0 else day + 1) = (w + (dc + 1)) % 7 := by
          split <;> omega
        exact ih _ _ r hday2 (by omega) (by omega) hs

/-- The week scan finds a result whenever some day strictly ahead of the
reference weekday (at offset `dc..6`) has its repeat flag set. -/
theorem scan_days_complete (a : AlarmItem) (w : Nat) (aDM rDM : Int) (hw : w ≤ 6) :
    ∀ fuel day dc, day = (w + dc) % 7 → 1 ≤ dc → dc + fuel = 8 →
      (∃ j, dc ≤ j ∧ j ≤ 6 ∧ a.repeatAt ((w + j) % 7) = true) →
      ∃ r, AlarmItem.scan_days a w aDM rDM fuel day dc = some r := by
  intro fuel
  induction fuel with
  | zero => intro day dc hday hdc hsum ⟨j, hj1, hj2, _⟩; omega
  | succ n ih =>
    intro day dc hday hdc hsum ⟨j, hj1, hj2, hjrep⟩
    have hdw : day ≠ w := by omega
    rw [AlarmItem.scan_days, if_neg hdw]
    by_cases hrep : a.repeatAt day = true
    · rw [if_pos hrep]
      by_cases hle : rDM ≤ aDM
      · exact ⟨_, by rw [if_pos hle]⟩
      · exact ⟨_, by rw [if_neg hle]⟩
    · rw [if_neg hrep]
      have hday2 : (if day + 1 > 6 then 0 else day + 1) = (w + (dc + 1)) % 7 := by
        split <;> omega
      refine ih _ _ hday2 (by omega) (by omega) ⟨j, ?_, hj2, hjrep⟩
      rcases Nat.eq_or_lt_of_le hj1 with he | hl
      · exfalso
        apply hrep
        subst he
        rw [← hday] at hjrep
        exact hjrep
      · omega

/-- C1: for every alarm record with hour in [0,23], minute in [0,59] and at
least one repeat flag set, and every reference hour in [0,23], minute in [0,59]
and weekday in [0,6], `minutes_to_alert` returns an integer in [0, 10079]. -/
theorem minutes_to_alert_in_range (a : AlarmItem) (h m w : Nat)
    (hah : a.hour ≤ 23) (ham : a.minute ≤ 59)
    (hh : h ≤ 23) (hm : m ≤ 59) (hw : w ≤ 6)
    (hact : a.any_day_enabled = true) :
    ∃ r, AlarmItem.minutes_to_alert a h m w = some r ∧ 0 ≤ r ∧ r ≤ 10079 := by
  rw [AlarmItem.minutes_to_alert]
  set aDM : Int := (a.minute : Int) + (a.hour : Int) * 60 with haDM
  set rDM : Int := (m : Int) + (h : Int) * 60 with hrDM
  have haB : 0 ≤ aDM ∧ aDM ≤ 1439 := by
    constructor <;> [positivity; skip]
    have h1 : (a.minute : Int) ≤ 59 := by exact_mod_cast ham
    have h2 : (a.hour : Int) ≤ 23 := by exact_mod_cast hah
    omega
  have hrB : 0 ≤ rDM ∧ rDM ≤ 1439 := by
    constructor <;> [positivity; skip]
    have h1 : (m : Int) ≤ 59 := by exact_mod_cast hm
    have h2 : (h : Int) ≤ 23 := by exact_mod_cast hh
    omega
  have hday1 : (if w + 1 > 6 then 0 else w + 1) = (w + 1) % 7 := by
    split <;> omega
  by_cases hcase1 : a.repeatAt w = true ∧ rDM ≤ aDM
  · rw [if_pos hcase1]
    exact ⟨aDM - rDM, rfl, by omega, by omega⟩
  · rw [if_neg hcase1]
    rcases hscan : AlarmItem.scan_days a w aDM rDM 7 (if w + 1 > 6 then 0 else w + 1) 1 with _ | r
    · -- the scan found nothing: every flagged day is the reference weekday itself
      by_cases hrw : a.repeatAt w = true
      · have hlt : aDM < rDM := by
          rcases lt_or_le aDM rDM with hlt | hge
          · exact hlt
          · exact absurd ⟨hrw, hge⟩ hcase1
        refine ⟨1440 * 7 - rDM + aDM, ?_, by omega, by omega⟩
        show (if a.repeatAt w = true ∧ aDM < rDM then some (1440 * 7 - rDM + aDM) else none) = _
        rw [if_pos ⟨hrw, hlt⟩]
      · obtain ⟨d, hd7, hdrep⟩ := exists_flag_of_any_day a hact
        have hdne : d ≠ w := fun he => hrw (he ▸ hdrep)
        have hwit : ∃ j, 1 ≤ j ∧ j ≤ 6 ∧ a.repeatAt ((w + j) % 7) = true := by
          refine ⟨(d + 7 - w) % 7, by omega, by omega, ?_⟩
          have : (w + (d + 7 - w) % 7) % 7 = d := by omega
          rw [this]; exact hdrep
        obtain ⟨r, hr⟩ := scan_days_complete a w aDM rDM hw 7
          (if w + 1 > 6 then 0 else w + 1) 1 hday1 (by omega) (by omega) hwit
        rw [hr] at hscan
        exact absurd hscan (by simp)
    · have := scan_days_sound a w aDM rDM hw haB.1 haB.2 hrB.1 hrB.2 7
        (if w + 1 > 6 then 0 else w + 1) 1 r hday1 (by omega) (by omega) hscan
      exact ⟨r, rfl, this.1, this.2⟩

/-- Witness for C1 at the alarm 07:00 repeating on Monday, referenced at
Wednesday 12:30. -/
theorem minutes_to_alert_in_range_witness :
    ∃ r, AlarmItem.minutes_to_alert
      { AlarmItem.blank with hour := 7, minute := 0, monday := true } 12 30 2 = some r ∧
      0 ≤ r ∧ r ≤ 10079 :=
  minutes_to_alert_in_range _ 12 30 2 (by decide) (by decide) (by decide) (by decide)
    (by decide) (by decide)

/-- The week scan never returns a value when no repeat flag is set. -/
theorem scan_days_none_of_no_repeat (a : AlarmItem) (w : Nat) (aDM rDM : Int)
    (hflags : ∀ d, a.repeatAt d = false) :
    ∀ fuel day dc, AlarmItem.scan_days a w aDM rDM fuel day dc = none := by
  intro fuel
  induction fuel with
  | zero => intro day dc; rfl
  | succ n ih =>
    intro day dc
    rw [AlarmItem.scan_days]
    by_cases hdw : day = w
    · rw [if_pos hdw]
    · rw [if_neg hdw, hflags day, if_neg (by simp)]
      exact ih _ _

/-- C7: an alarm whose seven repeat flags are all false yields
`minutes_to_alert = none` at every reference time and weekday (0..6), whatever
its own stored time is. -/
theorem minutes_to_alert_none_when_no_repeat (a : AlarmItem) (h m w : Nat)
    (hw : w ≤ 6) (hno : a.any_day_enabled = false) :
    AlarmItem.minutes_to_alert a h m w = none := by
  have hflags : ∀ d, a.repeatAt d = false := by
    intro d
    simp only [AlarmItem.any_day_enabled, Bool.or_eq_false_iff] at hno
    obtain ⟨e0, e1, e2, e3, e4, e5, e6⟩ := repeatAt_lt_seven a
    match d with
    | 0 => rw [e0]; exact hno.1.1.1.1.1.1
    | 1 => rw [e1]; exact hno.1.1.1.1.1.2
    | 2 => rw [e2]; exact hno.1.1.1.1.2
    | 3 => rw [e3]; exact hno.1.1.1.2
    | 4 => rw [e4]; exact hno.1.1.2
    | 5 => rw [e5]; exact hno.1.2
    | 6 => rw [e6]; exact hno.2
    | n + 7 => exact repeatAt_ge_seven a _ (by omega)
  rw [AlarmItem.minutes_to_alert]
  rw [if_neg (by simp [hflags w])]
  rw [scan_days_none_of_no_repeat a w _ _ hflags]
  rw [if_neg (by simp [hflags w])]

/-- Witness for C7 at a blank (all-flags-false) alarm, reference Thursday
05:04. -/
theorem minutes_to_alert_none_when_no_repeat_witness :
    AlarmItem.minutes_to_alert AlarmItem.blank 5 4 3 = none :=
  minutes_to_alert_none_when_no_repeat AlarmItem.blank 5 4 3 (by decide) (by decide)

/-- The alarm at 07:00 repeating only on Monday (boundary checks of C8). -/
def alarmMon7 : AlarmItem :=
  { AlarmItem.blank with hour := 7, minute := 0, monday := true }

/-- The alarm at Monday 00:00 repeating only on Monday (boundary checks of C8). -/
def alarmMon0 : AlarmItem :=
  { AlarmItem.blank with hour := 0, minute := 0, monday := true }

/-- C8: the three specified boundary values of `minutes_to_alert`: Monday-only
07:00 alarm referenced Monday 07:00 gives 0, referenced Monday 07:01 gives
10079, and a Monday 00:00 alarm referenced Sunday 23:59 gives 1. -/
theorem minutes_to_alert_boundaries :
    AlarmItem.minutes_to_alert alarmMon7 7 0 0 = some 0 ∧
    AlarmItem.minutes_to_alert alarmMon7 7 1 0 = some 10079 ∧
    AlarmItem.minutes_to_alert alarmMon0 23 59 6 = some 1 := by
  refine ⟨?_, ?_, ?_⟩ <;> rfl

/-! ### Concrete scheduler states used by the counterexamples -/

/-- A persisted, active alarm record (07:00, repeats Monday) with the given id. -/
def mkActive (n : Nat) : AlarmItem :=
  { AlarmItem.blank with id_ := some n, hour := 7, monday := true, enabled := true }

/-- The edited record of alarm 1: time moved from 07:00 to 09:00, still active. -/
def editedAlarm : AlarmItem :=
  { mkActive 1 with hour := 9 }

/-- A live (started) thread for alarm 1 still holding the pre-edit snapshot. -/
def liveThread : AlarmThread :=
  ⟨0, mkActive 1, true⟩

/-- Scheduler state in which alarm 1 was just edited in storage while its old
thread is still alive. -/
def editState : MgrState :=
  ⟨[editedAlarm], [liveThread], 5⟩

/-- Two live threads whose ids (1 and 2) have no persisted record at all. -/
def twoOrphanState : MgrState :=
  ⟨[], [⟨0, mkActive 1, true⟩, ⟨1, mkActive 2, true⟩], 2⟩

/-! ### C2: reconciling an edited, still-active record with a live timer -/

/-- C2 counterexample: reconciling the edited (still-active) alarm 1 while its
timer is alive keeps the very same timer object (`instanceId` 0) in the live
set, alive, with its held snapshot overwritten in place — no new timer instance
is created and no timer is stopped, contrary to the claimed stop-old/start-new
replacement. -/
theorem set_alarm_thread_in_place_cex :
    (AlarmManager.set_alarm_thread editState editedAlarm).2.threads =
      [⟨liveThread.instanceId, editedAlarm, true⟩] ∧
    (AlarmManager.set_alarm_thread editState editedAlarm).2.nextToken = editState.nextToken := by
  exact ⟨rfl, rfl⟩

/-- Setting the cell holding the first matching thread. -/
theorem list_set_at_prefix_length (pre post : List AlarmThread) (t x : AlarmThread) :
    (pre ++ t :: post).set pre.length x = pre ++ x :: post := by
  induction pre with
  | nil => rfl
  | cons u pre ih => simp [List.set, ih]

/-- The traversal of `__set_alarm_thread` on a list whose first id match is the
live thread `t`: the loop breaks at `t` and overwrites its slot with the
in-place-edited thread. -/
theorem set_loop_found (s : MgrState) (alarm : AlarmItem) :
    ∀ (pre : List AlarmThread) (k : Nat) (t : AlarmThread) (post : List AlarmThread),
      s.threads.drop k = pre ++ t :: post →
      (∀ u ∈ pre, (alarm.id_ == u.getId) = false) →
      (alarm.id_ == t.getId) = true →
      alarm.is_active = true →
      t.alive = true →
      AlarmManager.set_loop s alarm k (pre ++ t :: post) =
        (true, { s with threads := s.threads.set (k + pre.length) (t.edit_alarm alarm) }) := by
  intro pre
  induction pre with
  | nil =>
    intro k t post _ _ hmatch hact halive
    have halive1 : (t.edit_alarm alarm).alive = true := halive
    simp only [List.nil_append, AlarmManager.set_loop, hmatch, if_true, hact,
      Bool.true_eq_false, if_false, halive1, List.length_nil, Nat.add_zero]
  | cons u pre ih =>
    intro k t post hdrop hpre hmatch hact halive
    have hu : (alarm.id_ == u.getId) = false := hpre u (by simp)
    simp only [List.cons_append, AlarmManager.set_loop, hu, Bool.false_eq_true, if_false]
    have hdrop1 : s.threads.drop (k + 1) = pre ++ t :: post := by
      rw [← List.tail_drop, hdrop]
      rfl
    have hlen : k + 1 + pre.length = k + (u :: pre).length := by
      simp only [List.length_cons]
      omega
    calc AlarmManager.set_loop s alarm (k + 1) (pre ++ t :: post)
        = (true, { s with
            threads := s.threads.set (k + 1 + pre.length) (t.edit_alarm alarm) }) :=
          ih (k + 1) t post hdrop1 (fun v hv => hpre v (by simp [hv])) hmatch hact halive
      _ = (true, { s with
            threads := s.threads.set (k + (u :: pre).length) (t.edit_alarm alarm) }) := by
          rw [hlen]

/-- C2 amended: when the scheduler reconciles an edited record that is still
active and whose registered timer is alive, the live timer is edited in place —
its held snapshot is replaced while the same timer instance stays registered and
alive; a timer is only replaced by a new started instance when it is found dead.
(The spec's stop-old/start-new description is refuted by
`set_alarm_thread_in_place_cex`.) -/
theorem set_alarm_thread_edits_live_in_place (s : MgrState) (alarm : AlarmItem)
    (pre post : List AlarmThread) (t : AlarmThread)
    (hsplit : s.threads = pre ++ t :: post)
    (hpre : ∀ u ∈ pre, (alarm.id_ == u.getId) = false)
    (hmatch : (alarm.id_ == t.getId) = true)
    (hact : alarm.is_active = true)
    (halive : t.alive = true) :
    (AlarmManager.set_alarm_thread s alarm).2.threads =
      pre ++ (t.edit_alarm alarm) :: post ∧
    (t.edit_alarm alarm).instanceId = t.instanceId ∧
    (t.edit_alarm alarm).alive = true ∧
    (AlarmManager.set_alarm_thread s alarm).1 = true := by
  have h0 : s.threads.drop 0 = pre ++ t :: post := by rw [List.drop_zero, hsplit]
  have hrun := set_loop_found s alarm pre 0 t post h0 hpre hmatch hact halive
  rw [AlarmManager.set_alarm_thread, hsplit] at *
  rw [hrun]
  refine ⟨?_, rfl, halive, rfl⟩
  simp only [Nat.zero_add]
  exact list_set_at_prefix_length pre post t (t.edit_alarm alarm)

/-- Witness for the amended C2 at the concrete one-thread state. -/
theorem set_alarm_thread_edits_live_in_place_witness :
    (AlarmManager.set_alarm_thread editState editedAlarm).2.threads =
      [] ++ (liveThread.edit_alarm editedAlarm) :: [] ∧
    (liveThread.edit_alarm editedAlarm).instanceId = liveThread.instanceId ∧
    (liveThread.edit_alarm editedAlarm).alive = true ∧
    (AlarmManager.set_alarm_thread editState editedAlarm).1 = true :=
  set_alarm_thread_edits_live_in_place editState editedAlarm [] [] liveThread rfl
    (by intro u hu; cases hu) rfl rfl rfl

/-! ### C3 and C4: `check_threads_state` and orphaned timers -/

/-- C3 counterexample: with two orphaned live timers (ids 1 and 2, empty
persisted set), one call of `check_threads_state` removes only the first — the
cleanup loop removes elements from the list it iterates, so the iterator skips
the orphan that follows a removed one, which stays registered and alive. -/
theorem check_threads_state_skips_orphan_cex :
    (AlarmManager.check_threads_state twoOrphanState).2.threads =
      [⟨1, mkActive 2, true⟩] ∧
    AlarmManager.is_alarm_running
      (AlarmManager.check_threads_state twoOrphanState).2 (some 2) = true := by
  exact ⟨rfl, rfl⟩

/-- C4 counterexample: starting from the same two-orphan state, the second of
two back-to-back `check_threads_state` calls still returns false — the first
call left the skipped orphan behind, so the second call again finds (and this
time removes) it, reporting the state as having been incorrect. -/
theorem check_threads_state_second_call_false_cex :
    (AlarmManager.check_threads_state
      (AlarmManager.check_threads_state twoOrphanState).2).1 = false := by
  rfl

/-- Once `previously_correct` is false it stays false through the per-record
loop. -/
theorem check_loop_false (l : List AlarmItem) :
    ∀ cnt s, (AlarmManager.check_loop false cnt s l).1 = false := by
  induction l with
  | nil => intro cnt s; rfl
  | cons a rest ih =>
    intro cnt s
    simp only [AlarmManager.check_loop]
    split
    · split
      · exact ih _ _
      · exact ih _ _
    · split
      · exact ih _ _
      · exact ih _ _

/-- A per-record loop that reports `true` performed no correction: the state it
returns is the state it was given. -/
theorem check_loop_true_state (l : List AlarmItem) :
    ∀ prev cnt s, (AlarmManager.check_loop prev cnt s l).1 = true →
      (AlarmManager.check_loop prev cnt s l).2.2 = s := by
  induction l with
  | nil => intro prev cnt s _; rfl
  | cons a rest ih =>
    intro prev cnt s h
    simp only [AlarmManager.check_loop] at h ⊢
    by_cases ha : a.is_active = true
    · by_cases hr : AlarmManager.is_alarm_running s a.id_ = true
      · rw [if_pos ha, if_pos hr] at h ⊢
        exact ih _ _ _ h
      · rw [if_pos ha, if_neg hr] at h
        rw [check_loop_false] at h
        exact absurd h (by simp)
    · by_cases hr : AlarmManager.is_alarm_running s a.id_ = true
      · rw [if_neg ha, if_pos hr] at h
        rw [check_loop_false] at h
        exact absurd h (by simp)
      · rw [if_neg ha, if_neg hr] at h ⊢
        exact ih _ _ _ h

/-- A `check_threads_state` call that returns true changes nothing. -/
theorem check_threads_state_true_id (s : MgrState)
    (h : (AlarmManager.check_threads_state s).1 = true) :
    AlarmManager.check_threads_state s = (true, s) := by
  rw [AlarmManager.check_threads_state] at h ⊢
  split at h
  · exact absurd h (by simp)
  · rw [if_neg (by assumption)]
    rw [check_loop_true_state _ _ _ _ h, h]

/-- C4 amended: `check_threads_state` is idempotent from already-consistent
states — whenever a call returns true, an immediately following call (no
intervening mutation) also returns true (and the state is unchanged).  From an
inconsistent state one call need not reach the fixpoint:
`check_threads_state_second_call_false_cex` shows a state (two orphaned timers)
whose second call still returns false. -/
theorem check_threads_state_true_fixpoint (s : MgrState)
    (h : (AlarmManager.check_threads_state s).1 = true) :
    (AlarmManager.check_threads_state (AlarmManager.check_threads_state s).2).1 = true := by
  have hmain := check_threads_state_true_id s h
  rw [hmain, hmain]

/-- Witness for the amended C4 at the empty scheduler state. -/
theorem check_threads_state_true_fixpoint_witness :
    (AlarmManager.check_threads_state ⟨[], [], 0⟩).1 = true ∧
    (AlarmManager.check_threads_state
      (AlarmManager.check_threads_state ⟨[], [], 0⟩).2).1 = true :=
  ⟨rfl, check_threads_state_true_fixpoint ⟨[], [], 0⟩ rfl⟩

/-! ### C6: reconciling an inactive record leaves it not running -/

/-- The stop loop is the identity when no element carries the stopped id. -/
theorem stop_thread_loop_no_match (id0 : Option Nat) :
    ∀ (ts : List AlarmThread) (b : Bool),
      (∀ u ∈ ts, (id0 == u.getId) = false) →
      AlarmManager.stop_thread_loop id0 ts b = (b, ts) := by
  intro ts
  induction ts with
  | nil => intro b _; rfl
  | cons t rest ih =>
    intro b hall
    rw [AlarmManager.stop_thread_loop.eq_def]
    simp only [hall t (by simp), Bool.false_eq_true, if_false]
    rw [ih b (fun u hu => hall u (by simp [hu]))]

/-- With pairwise-distinct thread ids, no thread registered under the stopped id
survives the stop loop (at most one element matches, and it is examined and
removed). -/
theorem stop_thread_loop_clears (id0 : Option Nat) :
    ∀ (ts : List AlarmThread) (b : Bool),
      (ts.map AlarmThread.getId).Nodup →
      ∀ u ∈ (AlarmManager.stop_thread_loop id0 ts b).2, (u.getId == id0) = false := by
  intro ts
  induction ts with
  | nil => intro b _ u hu; simp [AlarmManager.stop_thread_loop] at hu
  | cons t rest ih =>
    intro b hnodup u hu
    rw [List.map_cons] at hnodup
    have hnodup' := List.nodup_cons.mp hnodup
    by_cases hm : (id0 == t.getId) = true
    · have hid : id0 = t.getId := eq_of_beq hm
      have hrest : ∀ x ∈ rest, (id0 == x.getId) = false := by
        intro x hx
        rw [hid, beq_eq_false_iff_ne]
        exact fun he => hnodup'.1 (he ▸ List.mem_map_of_mem AlarmThread.getId hx)
      cases rest with
      | nil =>
        rw [AlarmManager.stop_thread_loop.eq_def] at hu
        simp [hm] at hu
      | cons v rest2 =>
        have hcomp : AlarmManager.stop_thread_loop id0 rest2 true = (true, rest2) :=
          stop_thread_loop_no_match id0 rest2 true (fun x hx => hrest x (by simp [hx]))
        rw [AlarmManager.stop_thread_loop.eq_def] at hu
        simp only [hm, if_true, hcomp] at hu
        rw [optBeq_comm]
        exact hrest u hu
    · have hmf : (id0 == t.getId) = false := by
        cases h2 : id0 == t.getId
        · rfl
        · exact absurd h2 hm
      rw [AlarmManager.stop_thread_loop.eq_def] at hu
      simp only [hmf, Bool.false_eq_true, if_false, List.mem_cons] at hu
      rcases hu with rfl | hu
      · rw [optBeq_comm]
        exact hmf
      · exact ih b hnodup'.2 u hu

/-- After `__stop_alarm_thread` on a duplicate-free thread list, the stopped id
is no longer running. -/
theorem stop_clears_running (s : MgrState) (id0 : Option Nat)
    (hnodup : (s.threads.map AlarmThread.getId).Nodup) :
    AlarmManager.is_alarm_running (AlarmManager.stop_alarm_thread s id0).2 id0 = false := by
  have hclear := stop_thread_loop_clears id0 s.threads false hnodup
  simp only [AlarmManager.is_alarm_running, AlarmManager.stop_alarm_thread]
  rw [List.find?_eq_none.mpr (fun u hu => by simp [hclear u hu])]

/-- The reconciliation traversal on an inactive record: stop the registered
thread when some element matches the id, otherwise leave the state unchanged. -/
theorem set_loop_inactive (s : MgrState) (alarm : AlarmItem)
    (hinact : alarm.is_active = false) :
    ∀ (rest : List AlarmThread) (k : Nat),
      AlarmManager.set_loop s alarm k rest =
        if rest.any (fun t => alarm.id_ == t.getId) then
          (false, (AlarmManager.stop_alarm_thread s alarm.id_).2)
        else (false, s) := by
  intro rest
  induction rest with
  | nil => intro k; simp [AlarmManager.set_loop, hinact]
  | cons t rest ih =>
    intro k
    by_cases hm : (alarm.id_ == t.getId) = true
    · simp only [AlarmManager.set_loop, hm, if_true, hinact, List.any_cons, Bool.true_or]
    · have hmf : (alarm.id_ == t.getId) = false := by
        cases h2 : alarm.id_ == t.getId
        · rfl
        · exact absurd h2 hm
      simp only [AlarmManager.set_loop, hmf, Bool.false_eq_true, if_false, List.any_cons,
        Bool.false_or]
      exact ih (k + 1)

/-- C6: reconciling a record whose `is_active` is false always leaves
`is_alarm_running` false for its id, on any scheduler state whose live threads
carry pairwise-distinct ids (the documented at-most-one-timer-per-identity
ownership invariant). -/
theorem set_alarm_thread_inactive_not_running (s : MgrState) (alarm : AlarmItem)
    (hinact : alarm.is_active = false)
    (hnodup : (s.threads.map AlarmThread.getId).Nodup) :
    AlarmManager.is_alarm_running (AlarmManager.set_alarm_thread s alarm).2 alarm.id_ = false := by
  rw [AlarmManager.set_alarm_thread, set_loop_inactive s alarm hinact s.threads 0]
  by_cases hany : (s.threads.any fun t => alarm.id_ == t.getId) = true
  · rw [if_pos hany]
    exact stop_clears_running s alarm.id_ hnodup
  · rw [if_neg hany]
    have hany2 : (s.threads.any fun t => alarm.id_ == t.getId) = false := by
      simpa using hany
    rw [List.any_eq_false] at hany2
    simp only [AlarmManager.is_alarm_running]
    rw [List.find?_eq_none.mpr]
    intro u hu
    have h3 : (alarm.id_ == u.getId) = false := by
      have := hany2 u hu
      simpa using this
    simp [optBeq_comm u.getId alarm.id_, h3]

/-- Witness for C6: disabling alarm 1 while its thread is alive stops it. -/
theorem set_alarm_thread_inactive_not_running_witness :
    AlarmManager.is_alarm_running
      (AlarmManager.set_alarm_thread ⟨[], [⟨0, mkActive 1, true⟩], 1⟩
        { mkActive 1 with enabled := false }).2
      (AlarmItem.id_ { mkActive 1 with enabled := false }) = false :=
  set_alarm_thread_inactive_not_running ⟨[], [⟨0, mkActive 1, true⟩], 1⟩
    { mkActive 1 with enabled := false } rfl (by decide)

/-! ### C3: one `check_threads_state` call removes a sole orphaned timer -/

/-- A running id is witnessed by a live registered thread. -/
theorem running_exists (s : MgrState) (x : Option Nat)
    (h : AlarmManager.is_alarm_running s x = true) :
    ∃ u ∈ s.threads, u.getId = x ∧ u.alive = true := by
  rw [AlarmManager.is_alarm_running] at h
  cases hf : s.threads.find? (fun u => u.getId == x) with
  | none => rw [hf] at h; exact absurd h (by simp)
  | some u =>
    rw [hf] at h
    have hmem := List.mem_of_find?_eq_some hf
    have hp := List.find?_some hf
    exact ⟨u, hmem, eq_of_beq hp, h⟩



/-- The per-record loop of `check_threads_state` on a consistent store (every
active record running, every inactive one not) corrects nothing: it returns the
state unchanged and counts the active records. -/
theorem check_loop_consistent (l : List AlarmItem) :
    ∀ prev cnt s,
      (∀ a ∈ l, a.is_active = true → AlarmManager.is_alarm_running s a.id_ = true) →
      (∀ a ∈ l, a.is_active = false → AlarmManager.is_alarm_running s a.id_ = false) →
      AlarmManager.check_loop prev cnt s l =
        (prev, cnt + (l.filter (fun a => a.is_active)).length, s) := by
  induction l with
  | nil => intro prev cnt s _ _; simp [AlarmManager.check_loop]
  | cons a rest ih =>
    intro prev cnt s hact hin
    simp only [AlarmManager.check_loop]
    by_cases ha : a.is_active = true
    · rw [if_pos ha, if_pos (hact a (by simp) ha)]
      rw [ih prev (cnt + 1) s (fun x hx => hact x (by simp [hx]))
        (fun x hx => hin x (by simp [hx]))]
      have hlen : cnt + 1 + (rest.filter (fun a => a.is_active)).length =
          cnt + ((a :: rest).filter (fun a => a.is_active)).length := by
        simp [List.filter_cons, ha]
        omega
      rw [hlen]
    · have ha' : a.is_active = false := by
        cases h2 : a.is_active
        · rfl
        · exact absurd h2 ha
      rw [if_neg ha, if_neg (by simp [hin a (by simp) ha'])]
      rw [ih prev cnt s (fun x hx => hact x (by simp [hx]))
        (fun x hx => hin x (by simp [hx]))]
      have hlen : (rest.filter (fun a => a.is_active)).length =
          ((a :: rest).filter (fun a => a.is_active)).length := by
        simp [List.filter_cons, ha']
      rw [← hlen]

/-- Indexing a list whose `drop` starts with `t` yields `t`. -/
theorem getD_of_drop_cons (l : List AlarmThread) (k : Nat) (d t : AlarmThread)
    (post : List AlarmThread) (h : l.drop k = t :: post) : l.getD k d = t := by
  have h0 : l[k]? = some t := by
    rw [← Nat.add_zero k, ← List.getElem?_drop, h]
    simp
  rw [List.getD_eq_getElem?_getD, h0]
  rfl



/-- Extending a `take` by the element the matching `drop` starts with. -/
theorem take_succ_of_drop_cons (l : List AlarmThread) (k : Nat) (u : AlarmThread)
    (rest : List AlarmThread) (h : l.drop k = u :: rest) :
    l.take (k + 1) = l.take k ++ [u] := by
  have h0 : l[k]? = some u := by
    rw [← Nat.add_zero k, ← List.getElem?_drop, h]
    simp
  rw [List.take_succ, h0]
  rfl



/-- Membership transfers from a longer `drop` to a shorter one. -/
theorem mem_drop_of_mem_drop_succ (l : List AlarmThread) (u : AlarmThread) (k : Nat)
    (hu : u ∈ l.drop (k + 1)) : u ∈ l.drop k := by
  rw [← List.tail_drop] at hu
  exact List.mem_of_mem_tail hu



/-- Dropping one element past a length-`k` prefix. -/
theorem drop_succ_append (xs ys : List AlarmThread) (k : Nat) (hk : xs.length = k) :
    (xs ++ ys).drop (k + 1) = ys.drop 1 := by
  rw [← List.drop_drop, ← hk, List.drop_left]

/-- On a duplicate-free thread list, the stop loop removes exactly the unique
thread carrying the stopped id and reports success. -/
theorem stop_thread_loop_removes (id0 : Option Nat) :
    ∀ (pre : List AlarmThread) (t : AlarmThread) (post : List AlarmThread) (b : Bool),
      (((pre ++ t :: post).map AlarmThread.getId)).Nodup →
      (id0 == t.getId) = true →
      AlarmManager.stop_thread_loop id0 (pre ++ t :: post) b = (true, pre ++ post) := by
  intro pre
  induction pre with
  | nil =>
    intro t post b hnodup hm
    rw [List.nil_append, AlarmManager.stop_thread_loop.eq_def]
    simp only [hm, if_true]
    cases post with
    | nil => rfl
    | cons u rest2 =>
      simp only [List.nil_append, List.map_cons, List.nodup_cons] at hnodup
      have hrest2 : ∀ x ∈ rest2, (id0 == x.getId) = false := by
        intro x hx
        rw [eq_of_beq hm, beq_eq_false_iff_ne]
        intro he
        apply hnodup.1
        rw [List.mem_cons]
        right
        rw [he]
        exact List.mem_map_of_mem AlarmThread.getId hx
      show ((AlarmManager.stop_thread_loop id0 rest2 true).1,
        u :: (AlarmManager.stop_thread_loop id0 rest2 true).2) = (true, [] ++ u :: rest2)
      rw [stop_thread_loop_no_match id0 rest2 true hrest2]
      rfl
  | cons v pre ih =>
    intro t post b hnodup hm
    rw [List.cons_append, List.map_cons, List.nodup_cons] at hnodup
    have hv : (id0 == v.getId) = false := by
      rw [eq_of_beq hm, beq_eq_false_iff_ne]
      intro he
      exact hnodup.1 (he.symm ▸ List.mem_map_of_mem AlarmThread.getId (by simp))
    rw [List.cons_append, AlarmManager.stop_thread_loop.eq_def]
    simp only [hv, Bool.false_eq_true, if_false]
    rw [ih t post b hnodup.2 hm]
    rfl

/-- The orphan-cleanup loop leaves the state alone when every thread still to be
visited matches some persisted record. -/
theorem orphan_loop_skip_all (all : List AlarmItem) :
    ∀ fuel k s, s.threads.length ≤ fuel + k →
      (∀ u ∈ s.threads.drop k, (all.any fun a => a.id_ == u.getId) = true) →
      AlarmManager.orphan_loop all fuel k s = s := by
  intro fuel
  induction fuel with
  | zero => intro k s _ _; rfl
  | succ n ih =>
    intro k s hlen hall
    simp only [AlarmManager.orphan_loop]
    by_cases hk : k < s.threads.length
    · rw [if_pos hk]
      have hdrop : ∃ t post, s.threads.drop k = t :: post := by
        cases hd : s.threads.drop k with
        | nil =>
          have := List.drop_eq_nil_iff.mp hd
          omega
        | cons t post => exact ⟨t, post, rfl⟩
      obtain ⟨t, post, hdrop⟩ := hdrop
      have hget : s.threads.getD k ⟨0, AlarmItem.blank, false⟩ = t :=
        getD_of_drop_cons _ _ _ _ _ hdrop
      rw [hget, hall t (by rw [hdrop]; simp), if_pos rfl]
      exact ih (k + 1) s (by omega)
        (fun u hu => hall u (mem_drop_of_mem_drop_succ _ _ _ hu))
    · rw [if_neg hk]



/-- The orphan-cleanup loop on a list whose only orphan is `t` (at any
position): the matching threads before and after `t` are skipped, `t` is stopped
and removed, and nothing else changes. -/
theorem orphan_loop_removes (all : List AlarmItem) :
    ∀ (mid : List AlarmThread) (fuel k : Nat) (s : MgrState) (t : AlarmThread)
      (post : List AlarmThread),
      s.threads.drop k = mid ++ t :: post →
      (s.threads.map AlarmThread.getId).Nodup →
      (∀ u ∈ mid, (all.any fun a => a.id_ == u.getId) = true) →
      (∀ u ∈ post, (all.any fun a => a.id_ == u.getId) = true) →
      (all.any fun a => a.id_ == t.getId) = false →
      s.threads.length ≤ fuel + k →
      AlarmManager.orphan_loop all fuel k s =
        { s with threads := s.threads.take k ++ (mid ++ post) } := by
  intro mid
  induction mid with
  | nil =>
    intro fuel k s t post hdrop hnodup _ hpost ht hlen
    rw [List.nil_append] at hdrop
    have hk : k < s.threads.length := by
      by_contra hk
      have : s.threads.drop k = [] := List.drop_eq_nil_iff.mpr (by omega)
      rw [this] at hdrop
      exact absurd hdrop (by simp)
    obtain ⟨n, rfl⟩ : ∃ n, fuel = n + 1 := ⟨fuel - 1, by omega⟩
    simp only [AlarmManager.orphan_loop]
    rw [if_pos hk]
    rw [getD_of_drop_cons _ _ _ _ _ hdrop, ht, if_neg (by simp)]
    have hsplit : s.threads = s.threads.take k ++ t :: post := by
      conv_lhs => rw [← List.take_append_drop k s.threads]
      rw [hdrop]
    have hstop : AlarmManager.stop_alarm_thread s t.getId =
        (true, { s with threads := s.threads.take k ++ post }) := by
      rw [AlarmManager.stop_alarm_thread]
      rw [show AlarmManager.stop_thread_loop t.getId s.threads false =
          (true, s.threads.take k ++ post) by
        conv_lhs => rw [hsplit]
        exact stop_thread_loop_removes t.getId (s.threads.take k) t post false
          (by rw [← hsplit]; exact hnodup) (beq_self_eq_true t.getId)]
    rw [hstop]
    have htk : (s.threads.take k).length = k := by
      simp [List.length_take]
      omega
    refine orphan_loop_skip_all all n (k + 1) _ ?_ ?_
    · show (s.threads.take k ++ post).length ≤ n + (k + 1)
      have hl : s.threads.length = k + 1 + post.length := by
        conv_lhs => rw [hsplit]
        simp [htk]
        omega
      simp [htk]
      omega
    · show ∀ u ∈ (s.threads.take k ++ post).drop (k + 1), _
      rw [drop_succ_append _ _ _ htk]
      intro u hu
      exact hpost u (List.mem_of_mem_drop hu)
  | cons v mid ih =>
    intro fuel k s t post hdrop hnodup hmid hpost ht hlen
    rw [List.cons_append] at hdrop
    have hk : k < s.threads.length := by
      by_contra hk
      have : s.threads.drop k = [] := List.drop_eq_nil_iff.mpr (by omega)
      rw [this] at hdrop
      exact absurd hdrop (by simp)
    obtain ⟨n, rfl⟩ : ∃ n, fuel = n + 1 := ⟨fuel - 1, by omega⟩
    simp only [AlarmManager.orphan_loop]
    rw [if_pos hk]
    rw [getD_of_drop_cons _ _ _ _ _ hdrop, hmid v (by simp), if_pos rfl]
    have hdrop1 : s.threads.drop (k + 1) = mid ++ t :: post := by
      rw [← List.tail_drop, hdrop]
      rfl
    rw [ih n (k + 1) s t post hdrop1 hnodup (fun u hu => hmid u (by simp [hu]))
      hpost ht (by omega)]
    rw [take_succ_of_drop_cons _ _ _ _ hdrop]
    simp

/-- With a sole orphan among threads that all belong to distinct active records,
the live set outnumbers the active records by exactly one. -/
theorem single_orphan_count (dbRows : List AlarmItem) (pre post : List AlarmThread)
    (t : AlarmThread)
    (hnodupT : (((pre ++ t :: post).map AlarmThread.getId)).Nodup)
    (hnodupD : (dbRows.map AlarmItem.id_).Nodup)
    (horphan : ∀ a ∈ dbRows, (a.id_ == t.getId) = false)
    (hothers : ∀ u ∈ pre ++ post, ∃ a ∈ dbRows, a.is_active = true ∧ a.id_ = u.getId)
    (hrun : ∀ a ∈ dbRows, a.is_active = true →
      ∃ u ∈ pre ++ t :: post, u.getId = a.id_) :
    (pre ++ t :: post).length = (dbRows.filter (fun a => a.is_active)).length + 1 := by
  set L1 : List (Option Nat) := (pre ++ t :: post).map AlarmThread.getId with hL1
  set L2 : List (Option Nat) := (dbRows.filter (fun a => a.is_active)).map AlarmItem.id_
    with hL2
  have hnodup2 : L2.Nodup := by
    apply List.Nodup.sublist _ hnodupD
    exact List.Sublist.map AlarmItem.id_ (List.filter_sublist dbRows)
  have hnotmem : t.getId ∉ L2.toFinset := by
    rw [List.mem_toFinset, hL2, List.mem_map]
    rintro ⟨a, ha, hid⟩
    rw [List.mem_filter] at ha
    have := horphan a ha.1
    rw [hid] at this
    simp at this
  have hTF : L1.toFinset = insert t.getId L2.toFinset := by
    ext x
    simp only [List.mem_toFinset, Finset.mem_insert, hL1, hL2, List.mem_map]
    constructor
    · rintro ⟨u, hu, hx⟩
      rw [List.mem_append, List.mem_cons] at hu
      rcases hu with hu | rfl | hu
      · obtain ⟨a, ha, hact, hid⟩ := hothers u (by simp [hu])
        exact Or.inr ⟨a, List.mem_filter.mpr ⟨ha, hact⟩, by rw [hid, hx]⟩
      · exact Or.inl hx.symm
      · obtain ⟨a, ha, hact, hid⟩ := hothers u (by simp [hu])
        exact Or.inr ⟨a, List.mem_filter.mpr ⟨ha, hact⟩, by rw [hid, hx]⟩
    · rintro (rfl | ⟨a, ha, hx⟩)
      · exact ⟨t, by simp, rfl⟩
      · rw [List.mem_filter] at ha
        obtain ⟨u, hu, huid⟩ := hrun a ha.1 ha.2
        exact ⟨u, hu, by rw [huid, hx]⟩
  have hc1 : L1.length = L1.toFinset.card := (List.toFinset_card_of_nodup hnodupT).symm
  have hc2 : L2.length = L2.toFinset.card := (List.toFinset_card_of_nodup hnodup2).symm
  have hlen1 : (pre ++ t :: post).length = L1.length := by simp [hL1]
  have hlen2 : (dbRows.filter (fun a => a.is_active)).length = L2.length := by simp [hL2]
  rw [hlen1, hlen2, hc1, hc2, hTF, Finset.card_insert_of_not_mem hnotmem]

/-- C3 amended: after a single `check_threads_state` call on a scheduler state
whose live set holds exactly one orphaned timer — alive, its id matching no
persisted record — while every other live timer is the running timer of an
active persisted record (ids duplicate-free on both sides, active records
running, inactive ones not), the orphan is stopped and removed, the other
timers are untouched, and the call reports the prior inconsistency.  When
several orphans are live at once the cleanup scan can skip one — the loop
removes elements from the list it iterates — so a later orphan may survive the
call (`check_threads_state_skips_orphan_cex`). -/
theorem check_threads_state_single_orphan (s : MgrState)
    (pre post : List AlarmThread) (t : AlarmThread)
    (hsplit : s.threads = pre ++ t :: post)
    (halive : t.alive = true)
    (horphan : ∀ a ∈ s.db, (a.id_ == t.getId) = false)
    (hothers : ∀ u ∈ pre ++ post, ∃ a ∈ s.db, a.is_active = true ∧ a.id_ = u.getId)
    (hnodupT : (s.threads.map AlarmThread.getId).Nodup)
    (hnodupD : (s.db.map AlarmItem.id_).Nodup)
    (hrun : ∀ a ∈ s.db, a.is_active = true → AlarmManager.is_alarm_running s a.id_ = true)
    (hnotrun : ∀ a ∈ s.db, a.is_active = false →
      AlarmManager.is_alarm_running s a.id_ = false) :
    (AlarmManager.check_threads_state s).1 = false ∧
    (AlarmManager.check_threads_state s).2.threads = pre ++ post ∧
    AlarmManager.is_alarm_running (AlarmManager.check_threads_state s).2 t.getId = false := by
  have hphase1 := check_loop_consistent s.db true 0 s hrun hnotrun
  have hrun' : ∀ a ∈ s.db, a.is_active = true →
      ∃ u ∈ pre ++ t :: post, u.getId = a.id_ := by
    intro a ha hact
    obtain ⟨u, hu, hid, _⟩ := running_exists s a.id_ (hrun a ha hact)
    refine ⟨u, ?_, hid⟩
    rw [← hsplit]
    exact hu
  have hcount : s.threads.length = (s.db.filter (fun a => a.is_active)).length + 1 := by
    rw [hsplit]
    exact single_orphan_count s.db pre post t (by rw [← hsplit]; exact hnodupT) hnodupD
      horphan hothers hrun'
  have hremoved : AlarmManager.orphan_loop s.db s.threads.length 0 s =
      { s with threads := pre ++ post } := by
    have h0 : s.threads.drop 0 = pre ++ t :: post := by rw [List.drop_zero, hsplit]
    have hmid : ∀ u ∈ pre, (s.db.any fun a => a.id_ == u.getId) = true := by
      intro u hu
      obtain ⟨a, ha, _, hid⟩ := hothers u (by simp [hu])
      rw [List.any_eq_true]
      exact ⟨a, ha, by rw [hid]; exact beq_self_eq_true _⟩
    have hpost : ∀ u ∈ post, (s.db.any fun a => a.id_ == u.getId) = true := by
      intro u hu
      obtain ⟨a, ha, _, hid⟩ := hothers u (by simp [hu])
      rw [List.any_eq_true]
      exact ⟨a, ha, by rw [hid]; exact beq_self_eq_true _⟩
    have ht : (s.db.any fun a => a.id_ == t.getId) = false := by
      rw [List.any_eq_false]
      intro a ha
      simp [horphan a ha]
    have hrem := orphan_loop_removes s.db pre s.threads.length 0 s t post h0 hnodupT
      hmid hpost ht (by omega)
    rw [hrem]
    simp
  have hres : AlarmManager.check_threads_state s =
      (false, { s with threads := pre ++ post }) := by
    simp only [AlarmManager.check_threads_state, hphase1]
    rw [if_pos (by omega)]
    rw [hremoved]
  rw [hres]
  refine ⟨rfl, rfl, ?_⟩
  have hnotin : ∀ u ∈ pre ++ post, (u.getId == t.getId) = false := by
    intro u hu
    have hmap : ((pre ++ t :: post).map AlarmThread.getId).Nodup := by
      rw [← hsplit]
      exact hnodupT
    rw [List.map_append, List.map_cons, List.nodup_middle, List.nodup_cons] at hmap
    have hmem : u.getId ∈ pre.map AlarmThread.getId ++ post.map AlarmThread.getId := by
      rw [← List.map_append]
      exact List.mem_map_of_mem AlarmThread.getId hu
    rw [beq_eq_false_iff_ne]
    intro he
    apply hmap.1
    rw [← he]
    exact hmem
  show AlarmManager.is_alarm_running { s with threads := pre ++ post } t.getId = false
  simp only [AlarmManager.is_alarm_running]
  rw [List.find?_eq_none.mpr]
  intro u hu
  have hu' : u ∈ pre ++ post := hu
  simp [hnotin u hu']

/-- Witness for the amended C3: an orphaned live timer (id 5) registered next
to the running timer of the active record 1, with an inactive record 9 also
persisted. -/
theorem check_threads_state_single_orphan_witness :
    (AlarmManager.check_threads_state
      ⟨[mkActive 1, { AlarmItem.blank with id_ := some 9 }],
       [⟨0, mkActive 1, true⟩, ⟨1, mkActive 5, true⟩], 2⟩).1 = false ∧
    (AlarmManager.check_threads_state
      ⟨[mkActive 1, { AlarmItem.blank with id_ := some 9 }],
       [⟨0, mkActive 1, true⟩, ⟨1, mkActive 5, true⟩], 2⟩).2.threads =
      [⟨0, mkActive 1, true⟩] ++ [] ∧
    AlarmManager.is_alarm_running
      (AlarmManager.check_threads_state
        ⟨[mkActive 1, { AlarmItem.blank with id_ := some 9 }],
         [⟨0, mkActive 1, true⟩, ⟨1, mkActive 5, true⟩], 2⟩).2
      (AlarmThread.getId ⟨1, mkActive 5, true⟩) = false :=
  check_threads_state_single_orphan
    ⟨[mkActive 1, { AlarmItem.blank with id_ := some 9 }],
     [⟨0, mkActive 1, true⟩, ⟨1, mkActive 5, true⟩], 2⟩
    [⟨0, mkActive 1, true⟩] [] ⟨1, mkActive 5, true⟩ rfl rfl
    (by decide) (by decide) (by decide) (by decide) (by decide) (by decide)

/-! ### Field preservation of the `AlarmItem` setters -/

@[simp] theorem set_hour_minute (a : AlarmItem) (x : Int) :
    (AlarmItem.set_hour a x).minute = a.minute := by
  rw [AlarmItem.set_hour]; split <;> rfl

@[simp] theorem set_hour_repeatList (a : AlarmItem) (x : Int) :
    (AlarmItem.set_hour a x).repeatList = a.repeatList := by
  rw [AlarmItem.set_hour]; split <;> rfl

@[simp] theorem set_hour_enabled (a : AlarmItem) (x : Int) :
    (AlarmItem.set_hour a x).enabled = a.enabled := by
  rw [AlarmItem.set_hour]; split <;> rfl

@[simp] theorem set_hour_label (a : AlarmItem) (x : Int) :
    (AlarmItem.set_hour a x).label = a.label := by
  rw [AlarmItem.set_hour]; split <;> rfl

@[simp] theorem set_hour_timestamp (a : AlarmItem) (x : Int) :
    (AlarmItem.set_hour a x).timestamp = a.timestamp := by
  rw [AlarmItem.set_hour]; split <;> rfl

@[simp] theorem set_hour_id (a : AlarmItem) (x : Int) :
    (AlarmItem.set_hour a x).id_ = a.id_ := by
  rw [AlarmItem.set_hour]; split <;> rfl

@[simp] theorem set_hour_station (a : AlarmItem) (x : Int) :
    (AlarmItem.set_hour a x).station_id = a.station_id := by
  rw [AlarmItem.set_hour]; split <;> rfl

@[simp] theorem set_minute_hour (a : AlarmItem) (x : Int) :
    (AlarmItem.set_minute a x).hour = a.hour := by
  rw [AlarmItem.set_minute]; split <;> rfl

@[simp] theorem set_minute_repeatList (a : AlarmItem) (x : Int) :
    (AlarmItem.set_minute a x).repeatList = a.repeatList := by
  rw [AlarmItem.set_minute]; split <;> rfl

@[simp] theorem set_minute_enabled (a : AlarmItem) (x : Int) :
    (AlarmItem.set_minute a x).enabled = a.enabled := by
  rw [AlarmItem.set_minute]; split <;> rfl

@[simp] theorem set_minute_label (a : AlarmItem) (x : Int) :
    (AlarmItem.set_minute a x).label = a.label := by
  rw [AlarmItem.set_minute]; split <;> rfl

@[simp] theorem set_minute_timestamp (a : AlarmItem) (x : Int) :
    (AlarmItem.set_minute a x).timestamp = a.timestamp := by
  rw [AlarmItem.set_minute]; split <;> rfl

@[simp] theorem set_minute_id (a : AlarmItem) (x : Int) :
    (AlarmItem.set_minute a x).id_ = a.id_ := by
  rw [AlarmItem.set_minute]; split <;> rfl

@[simp] theorem set_minute_station (a : AlarmItem) (x : Int) :
    (AlarmItem.set_minute a x).station_id = a.station_id := by
  rw [AlarmItem.set_minute]; split <;> rfl

@[simp] theorem set_repeat_hour (a : AlarmItem) (l : List Bool) :
    (AlarmItem.set_repeat a l).hour = a.hour := by
  rw [AlarmItem.set_repeat]; split <;> rfl

@[simp] theorem set_repeat_minute (a : AlarmItem) (l : List Bool) :
    (AlarmItem.set_repeat a l).minute = a.minute := by
  rw [AlarmItem.set_repeat]; split <;> rfl

@[simp] theorem set_repeat_enabled (a : AlarmItem) (l : List Bool) :
    (AlarmItem.set_repeat a l).enabled = a.enabled := by
  rw [AlarmItem.set_repeat]; split <;> rfl

@[simp] theorem set_repeat_label (a : AlarmItem) (l : List Bool) :
    (AlarmItem.set_repeat a l).label = a.label := by
  rw [AlarmItem.set_repeat]; split <;> rfl

@[simp] theorem set_repeat_timestamp (a : AlarmItem) (l : List Bool) :
    (AlarmItem.set_repeat a l).timestamp = a.timestamp := by
  rw [AlarmItem.set_repeat]; split <;> rfl

@[simp] theorem set_repeat_id (a : AlarmItem) (l : List Bool) :
    (AlarmItem.set_repeat a l).id_ = a.id_ := by
  rw [AlarmItem.set_repeat]; split <;> rfl

@[simp] theorem set_repeat_station (a : AlarmItem) (l : List Bool) :
    (AlarmItem.set_repeat a l).station_id = a.station_id := by
  rw [AlarmItem.set_repeat]; split <;> rfl

@[simp] theorem set_enabled_hour (a : AlarmItem) (e : Option Bool) :
    (AlarmItem.set_enabled a e).hour = a.hour := by
  cases e <;> rfl

@[simp] theorem set_enabled_minute (a : AlarmItem) (e : Option Bool) :
    (AlarmItem.set_enabled a e).minute = a.minute := by
  cases e <;> rfl

@[simp] theorem set_enabled_repeatList (a : AlarmItem) (e : Option Bool) :
    (AlarmItem.set_enabled a e).repeatList = a.repeatList := by
  cases e <;> rfl

@[simp] theorem set_enabled_label (a : AlarmItem) (e : Option Bool) :
    (AlarmItem.set_enabled a e).label = a.label := by
  cases e <;> rfl

@[simp] theorem set_enabled_timestamp (a : AlarmItem) (e : Option Bool) :
    (AlarmItem.set_enabled a e).timestamp = a.timestamp := by
  cases e <;> rfl

@[simp] theorem set_enabled_id (a : AlarmItem) (e : Option Bool) :
    (AlarmItem.set_enabled a e).id_ = a.id_ := by
  cases e <;> rfl

@[simp] theorem set_enabled_station (a : AlarmItem) (e : Option Bool) :
    (AlarmItem.set_enabled a e).station_id = a.station_id := by
  cases e <;> rfl

@[simp] theorem set_label_hour (a : AlarmItem) (l : String) :
    (AlarmItem.set_label a l).hour = a.hour := rfl

@[simp] theorem set_label_minute (a : AlarmItem) (l : String) :
    (AlarmItem.set_label a l).minute = a.minute := rfl

@[simp] theorem set_label_repeatList (a : AlarmItem) (l : String) :
    (AlarmItem.set_label a l).repeatList = a.repeatList := rfl

@[simp] theorem set_label_enabled (a : AlarmItem) (l : String) :
    (AlarmItem.set_label a l).enabled = a.enabled := rfl

@[simp] theorem set_label_timestamp (a : AlarmItem) (l : String) :
    (AlarmItem.set_label a l).timestamp = a.timestamp := rfl

@[simp] theorem set_label_id (a : AlarmItem) (l : String) :
    (AlarmItem.set_label a l).id_ = a.id_ := rfl

@[simp] theorem set_label_station (a : AlarmItem) (l : String) :
    (AlarmItem.set_label a l).station_id = a.station_id := rfl

@[simp] theorem set_timestamp_hour (a : AlarmItem) (x : Int) :
    (AlarmItem.set_timestamp a x).hour = a.hour := by
  rw [AlarmItem.set_timestamp]; split <;> rfl

@[simp] theorem set_timestamp_minute (a : AlarmItem) (x : Int) :
    (AlarmItem.set_timestamp a x).minute = a.minute := by
  rw [AlarmItem.set_timestamp]; split <;> rfl

@[simp] theorem set_timestamp_repeatList (a : AlarmItem) (x : Int) :
    (AlarmItem.set_timestamp a x).repeatList = a.repeatList := by
  rw [AlarmItem.set_timestamp]; split <;> rfl

@[simp] theorem set_timestamp_enabled (a : AlarmItem) (x : Int) :
    (AlarmItem.set_timestamp a x).enabled = a.enabled := by
  rw [AlarmItem.set_timestamp]; split <;> rfl

@[simp] theorem set_timestamp_label (a : AlarmItem) (x : Int) :
    (AlarmItem.set_timestamp a x).label = a.label := by
  rw [AlarmItem.set_timestamp]; split <;> rfl

@[simp] theorem set_timestamp_id (a : AlarmItem) (x : Int) :
    (AlarmItem.set_timestamp a x).id_ = a.id_ := by
  rw [AlarmItem.set_timestamp]; split <;> rfl

@[simp] theorem set_timestamp_station (a : AlarmItem) (x : Int) :
    (AlarmItem.set_timestamp a x).station_id = a.station_id := by
  rw [AlarmItem.set_timestamp]; split <;> rfl

@[simp] theorem set_id_hour (a : AlarmItem) (x : Int) :
    (AlarmItem.set_id a x).hour = a.hour := by
  rw [AlarmItem.set_id]; split <;> rfl

@[simp] theorem set_id_minute (a : AlarmItem) (x : Int) :
    (AlarmItem.set_id a x).minute = a.minute := by
  rw [AlarmItem.set_id]; split <;> rfl

@[simp] theorem set_id_repeatList (a : AlarmItem) (x : Int) :
    (AlarmItem.set_id a x).repeatList = a.repeatList := by
  rw [AlarmItem.set_id]; split <;> rfl

@[simp] theorem set_id_enabled (a : AlarmItem) (x : Int) :
    (AlarmItem.set_id a x).enabled = a.enabled := by
  rw [AlarmItem.set_id]; split <;> rfl

@[simp] theorem set_id_label (a : AlarmItem) (x : Int) :
    (AlarmItem.set_id a x).label = a.label := by
  rw [AlarmItem.set_id]; split <;> rfl

@[simp] theorem set_id_timestamp (a : AlarmItem) (x : Int) :
    (AlarmItem.set_id a x).timestamp = a.timestamp := by
  rw [AlarmItem.set_id]; split <;> rfl

@[simp] theorem set_id_station (a : AlarmItem) (x : Int) :
    (AlarmItem.set_id a x).station_id = a.station_id := by
  rw [AlarmItem.set_id]; split <;> rfl

@[simp] theorem set_station_hour (a : AlarmItem) (x : Int) :
    (AlarmItem.set_station_id a x).hour = a.hour := by
  rw [AlarmItem.set_station_id]; split <;> rfl

@[simp] theorem set_station_minute (a : AlarmItem) (x : Int) :
    (AlarmItem.set_station_id a x).minute = a.minute := by
  rw [AlarmItem.set_station_id]; split <;> rfl

@[simp] theorem set_station_repeatList (a : AlarmItem) (x : Int) :
    (AlarmItem.set_station_id a x).repeatList = a.repeatList := by
  rw [AlarmItem.set_station_id]; split <;> rfl

@[simp] theorem set_station_enabled (a : AlarmItem) (x : Int) :
    (AlarmItem.set_station_id a x).enabled = a.enabled := by
  rw [AlarmItem.set_station_id]; split <;> rfl

@[simp] theorem set_station_label (a : AlarmItem) (x : Int) :
    (AlarmItem.set_station_id a x).label = a.label := by
  rw [AlarmItem.set_station_id]; split <;> rfl

@[simp] theorem set_station_timestamp (a : AlarmItem) (x : Int) :
    (AlarmItem.set_station_id a x).timestamp = a.timestamp := by
  rw [AlarmItem.set_station_id]; split <;> rfl

@[simp] theorem set_station_id_field (a : AlarmItem) (x : Int) :
    (AlarmItem.set_station_id a x).id_ = a.id_ := by
  rw [AlarmItem.set_station_id]; split <;> rfl

/-! ### C5: partial persisted writes on a failing edit -/

/-- The persisted row used by the failing-edit counterexample: alarm 1 at
05:10. -/
def storedRow : AlarmItem :=
  { AlarmItem.blank with
    id_ := some 1, hour := 5, minute := 10, monday := true, enabled := true }

/-- `AlarmItem(hour, 0)` on a valid hour, as used by the edit validation. -/
theorem new_hour_probe (h : Int) (h0 : 0 ≤ h) (h1 : h < 24) :
    AlarmItem.new h 0 [false, false, false, false, false, false, false]
      (some true) "" none none none =
      some { AlarmItem.blank with hour := h.toNat, enabled := true } := by
  unfold AlarmItem.new
  simp [AlarmItem.set_hour, AlarmItem.set_minute, AlarmItem.set_repeat, AlarmItem.set_enabled,
    AlarmItem.set_label, AlarmItem.blank, AlarmItem.repeatList, h0, h1,
    Int.toNat_of_nonneg h0, List.getD]

/-- `AlarmItem(0, minute)` on an out-of-range minute is rejected. -/
theorem new_minute_probe_fail (m : Int) (hm : ¬(0 ≤ m ∧ m < 60)) :
    AlarmItem.new 0 m [false, false, false, false, false, false, false]
      (some true) "" none none none = none := by
  have hmne : ((0 : Int) == m) = false := beq_eq_false_iff_ne.mpr (by omega)
  unfold AlarmItem.new
  simp [AlarmItem.set_hour, AlarmItem.set_minute, AlarmItem.set_repeat, AlarmItem.set_enabled,
    AlarmItem.set_label, AlarmItem.blank, AlarmItem.repeatList, hm, hmne, List.getD]

/-- C5 counterexample: editing alarm 1 with a valid hour (8) and a malformed
minute (99) reports failure, yet the hour — validated and written before the
minute was rejected — is persisted: the stored record is changed by a failing
call. -/
theorem edit_alarm_partial_write_cex :
    edit_alarm_db [storedRow] 1 (some 8) (some 99) none none none none 77 =
      (false, [{ storedRow with hour := 8 }]) := by
  rfl

/-- C5 amended: `edit_alarm` validates each supplied field independently and
writes every valid field to the table immediately, so a call containing one
malformed field reports failure (and skips the timestamp refresh) but still
persists the other supplied fields: here a valid hour together with an
out-of-range minute returns false while the stored row's hour is rewritten.
Only the add path (construction) persists nothing on a malformed field. -/
theorem edit_alarm_reports_failure_but_writes (rows : List AlarmItem) (id0 : Nat)
    (h m : Int) (now : Nat) (hh0 : 0 ≤ h) (hh1 : h < 24) (hmbad : ¬(0 ≤ m ∧ m < 60)) :
    (edit_alarm_db rows id0 (some h) (some m) none none none none now).1 = false ∧
    (edit_alarm_db rows id0 (some h) (some m) none none none none now).2 =
      rows.map (fun a => if a.id_ == some id0 then { a with hour := h.toNat } else a) := by
  have hp1 := new_hour_probe h hh0 hh1
  have hp2 := new_minute_probe_fail m hmbad
  have h1 : edit_hour_step id0 (some h) (true, rows) =
      (rows.any (fun a => a.id_ == some id0),
       rows.map (fun a => if a.id_ == some id0 then { a with hour := h.toNat } else a)) := by
    simp [edit_hour_step, hp1, dbRowUpdate]
  have h2 : ∀ st : Bool × List AlarmItem, edit_minute_step id0 (some m) st = (false, st.2) := by
    intro st
    simp [edit_minute_step, hp2]
  have h3 : ∀ st : Bool × List AlarmItem, edit_days_step id0 none st = st := fun _ => rfl
  have h4 : ∀ st : Bool × List AlarmItem, edit_enabled_step id0 none st = st := fun _ => rfl
  have h5 : ∀ st : Bool × List AlarmItem, edit_label_step id0 none st = st := fun _ => rfl
  have h6 : ∀ st : Bool × List AlarmItem, edit_station_step id0 none st = st := fun _ => rfl
  have hfinal : edit_alarm_db rows id0 (some h) (some m) none none none none now =
      (false, rows.map (fun a => if a.id_ == some id0 then { a with hour := h.toNat } else a)) := by
    simp only [edit_alarm_db, h1, h2, h3, h4, h5, h6, Bool.false_eq_true, if_false]
  rw [hfinal]
  exact ⟨rfl, rfl⟩

/-- Witness for the amended C5 at the stored 05:10 row, hour 8, minute 99. -/
theorem edit_alarm_reports_failure_but_writes_witness :
    (edit_alarm_db [storedRow] 2 (some 8) (some 99) none none none none 77).1 = false ∧
    (edit_alarm_db [storedRow] 2 (some 8) (some 99) none none none none 77).2 =
      [storedRow].map
        (fun a => if a.id_ == some 2 then { a with hour := (8 : Int).toNat } else a) :=
  edit_alarm_reports_failure_but_writes [storedRow] 2 8 99 77 (by decide) (by decide)
    (by decide)

/-! ### C9: constructor behaviour on rejected inputs -/

/-- C9 counterexample: constructing an `AlarmItem` with `enabled = None`
succeeds — it returns an instance (with `enabled` left at its initial `false`)
— even though the enabled setter rejects `None` and keeps the previous value,
so a rejected supplied field does not always make construction return `None`. -/
theorem alarm_item_new_enabled_none_cex :
    AlarmItem.new 7 0 (List.replicate 7 false) none "" none none none =
      some { AlarmItem.blank with hour := 7 } ∧
    AlarmItem.set_enabled AlarmItem.blank none = AlarmItem.blank := by
  exact ⟨rfl, rfl⟩

/-- Constructing with an out-of-range hour fails: the hour setter keeps 0 and
the validity check rejects the instance. -/
theorem ctor_hour_fail (h m : Int) (days : List Bool) (e : Option Bool) (lbl : String)
    (ts aid sid : Option Int) (hbad : ¬(0 ≤ h ∧ h < 24)) :
    AlarmItem.new h m days e lbl ts aid sid = none := by
  have h1 : AlarmItem.set_hour AlarmItem.blank h = AlarmItem.blank := by
    rw [AlarmItem.set_hour, if_neg hbad]
  have hne2 : (0 : Int) ≠ h := by omega
  unfold AlarmItem.new
  rw [h1]
  cases ts <;> cases aid <;> cases sid <;>
    simp [AlarmItem.blank, hne2]

/-- Constructing with an out-of-range minute fails. -/
theorem ctor_minute_fail (h m : Int) (days : List Bool) (e : Option Bool) (lbl : String)
    (ts aid sid : Option Int) (hbad : ¬(0 ≤ m ∧ m < 60)) :
    AlarmItem.new h m days e lbl ts aid sid = none := by
  have h2 : ∀ a : AlarmItem, AlarmItem.set_minute a m = a := by
    intro a
    rw [AlarmItem.set_minute, if_neg hbad]
  have hne3 : (0 : Int) ≠ m := by omega
  unfold AlarmItem.new
  cases ts <;> cases aid <;> cases sid <;>
    simp [AlarmItem.blank, h2, hne3]

/-- Constructing with a repeat list of the wrong length fails. -/
theorem ctor_days_fail (h m : Int) (days : List Bool) (e : Option Bool) (lbl : String)
    (ts aid sid : Option Int) (hbad : days.length ≠ 7) :
    AlarmItem.new h m days e lbl ts aid sid = none := by
  have h3 : ∀ a : AlarmItem, AlarmItem.set_repeat a days = a := by
    intro a
    rw [AlarmItem.set_repeat, if_neg hbad]
  have hlist : ∀ a : AlarmItem, a.repeatList ≠ days := by
    intro a he
    apply hbad
    rw [← he]
    rfl
  unfold AlarmItem.new
  cases ts <;> cases aid <;> cases sid <;>
    simp [AlarmItem.blank, h3, hlist]

/-- Constructing with a negative timestamp fails. -/
theorem ctor_ts_fail (h m : Int) (days : List Bool) (e : Option Bool) (lbl : String)
    (t : Int) (aid sid : Option Int) (hbad : t < 0) :
    AlarmItem.new h m days e lbl (some t) aid sid = none := by
  have h6 : ∀ a : AlarmItem, AlarmItem.set_timestamp a t = a := by
    intro a
    rw [AlarmItem.set_timestamp, if_neg (by omega)]
  unfold AlarmItem.new
  cases aid <;> cases sid <;>
    simp [AlarmItem.blank, h6, AlarmItem.optNatEqInt]

/-- Constructing with a negative alarm id fails. -/
theorem ctor_id_fail (h m : Int) (days : List Bool) (e : Option Bool) (lbl : String)
    (ts : Option Int) (x : Int) (sid : Option Int) (hbad : x < 0) :
    AlarmItem.new h m days e lbl ts (some x) sid = none := by
  have h7 : ∀ a : AlarmItem, AlarmItem.set_id a x = a := by
    intro a
    rw [AlarmItem.set_id, if_neg (by omega)]
  unfold AlarmItem.new
  cases ts <;> cases sid <;>
    simp [AlarmItem.blank, h7, AlarmItem.optNatEqInt]

/-- Constructing with a negative station id fails. -/
theorem ctor_station_fail (h m : Int) (days : List Bool) (e : Option Bool) (lbl : String)
    (ts aid : Option Int) (x : Int) (hbad : x < 0) :
    AlarmItem.new h m days e lbl ts aid (some x) = none := by
  have h8 : ∀ a : AlarmItem, AlarmItem.set_station_id a x = a := by
    intro a
    rw [AlarmItem.set_station_id, if_neg (by omega)]
  unfold AlarmItem.new
  cases ts <;> cases aid <;>
    simp [AlarmItem.blank, h8, AlarmItem.optNatEqInt]

/-- C9 amended: every sanitising setter keeps the previous value on a rejected
input (out-of-range integers, a wrong-length repeat list, `None` for `enabled`),
and construction returns `None` whenever the supplied hour, minute, repeat
list, timestamp, alarm id or station id is rejected.  The one exception —
forced by `alarm_item_new_enabled_none_cex` — is `enabled = None`: the setter
rejects it, yet the constructor's validity check skips `None` and construction
still succeeds with `enabled` left at `false`. -/
theorem alarm_item_validation_amended :
    (∀ (a : AlarmItem) (x : Int), ¬(0 ≤ x ∧ x < 24) → AlarmItem.set_hour a x = a) ∧
    (∀ (a : AlarmItem) (x : Int), ¬(0 ≤ x ∧ x < 60) → AlarmItem.set_minute a x = a) ∧
    (∀ (a : AlarmItem) (l : List Bool), l.length ≠ 7 → AlarmItem.set_repeat a l = a) ∧
    (∀ a : AlarmItem, AlarmItem.set_enabled a none = a) ∧
    (∀ (a : AlarmItem) (x : Int), x < 0 → AlarmItem.set_id a x = a) ∧
    (∀ (a : AlarmItem) (x : Int), x < 0 → AlarmItem.set_timestamp a x = a) ∧
    (∀ (a : AlarmItem) (x : Int), x < 0 → AlarmItem.set_station_id a x = a) ∧
    (∀ (h m : Int) (days : List Bool) (e : Option Bool) (lbl : String) (ts aid sid : Option Int),
      ¬(0 ≤ h ∧ h < 24) → AlarmItem.new h m days e lbl ts aid sid = none) ∧
    (∀ (h m : Int) (days : List Bool) (e : Option Bool) (lbl : String) (ts aid sid : Option Int),
      ¬(0 ≤ m ∧ m < 60) → AlarmItem.new h m days e lbl ts aid sid = none) ∧
    (∀ (h m : Int) (days : List Bool) (e : Option Bool) (lbl : String) (ts aid sid : Option Int),
      days.length ≠ 7 → AlarmItem.new h m days e lbl ts aid sid = none) ∧
    (∀ (h m : Int) (days : List Bool) (e : Option Bool) (lbl : String) (t : Int)
      (aid sid : Option Int), t < 0 → AlarmItem.new h m days e lbl (some t) aid sid = none) ∧
    (∀ (h m : Int) (days : List Bool) (e : Option Bool) (lbl : String) (ts : Option Int)
      (x : Int) (sid : Option Int), x < 0 → AlarmItem.new h m days e lbl ts (some x) sid = none) ∧
    (∀ (h m : Int) (days : List Bool) (e : Option Bool) (lbl : String) (ts aid : Option Int)
      (x : Int), x < 0 → AlarmItem.new h m days e lbl ts aid (some x) = none) := by
  refine ⟨?_, ?_, ?_, ?_, ?_, ?_, ?_, ?_, ?_, ?_, ?_, ?_, ?_⟩
  · intro a x hx
    rw [AlarmItem.set_hour, if_neg hx]
  · intro a x hx
    rw [AlarmItem.set_minute, if_neg hx]
  · intro a l hl
    rw [AlarmItem.set_repeat, if_neg hl]
  · intro a
    rfl
  · intro a x hx
    rw [AlarmItem.set_id, if_neg (by omega)]
  · intro a x hx
    rw [AlarmItem.set_timestamp, if_neg (by omega)]
  · intro a x hx
    rw [AlarmItem.set_station_id, if_neg (by omega)]
  · intro h m days e lbl ts aid sid hbad
    exact ctor_hour_fail h m days e lbl ts aid sid hbad
  · intro h m days e lbl ts aid sid hbad
    exact ctor_minute_fail h m days e lbl ts aid sid hbad
  · intro h m days e lbl ts aid sid hbad
    exact ctor_days_fail h m days e lbl ts aid sid hbad
  · intro h m days e lbl t aid sid hbad
    exact ctor_ts_fail h m days e lbl t aid sid hbad
  · intro h m days e lbl ts x sid hbad
    exact ctor_id_fail h m days e lbl ts x sid hbad
  · intro h m days e lbl ts aid x hbad
    exact ctor_station_fail h m days e lbl ts aid x hbad

/-- Witness for the amended C9 at concrete rejected inputs. -/
theorem alarm_item_validation_amended_witness :
    AlarmItem.set_hour AlarmItem.blank 99 = AlarmItem.blank ∧
    AlarmItem.set_repeat AlarmItem.blank [true] = AlarmItem.blank ∧
    AlarmItem.new 99 0 (List.replicate 7 false) (some true) "" none none none = none ∧
    AlarmItem.new 7 0 [true] (some true) "" none none none = none ∧
    AlarmItem.new 7 0 (List.replicate 7 false) (some true) "" (some (-3)) none none = none :=
  ⟨alarm_item_validation_amended.1 AlarmItem.blank 99 (by omega),
   (alarm_item_validation_amended.2.2.1) AlarmItem.blank [true] (by decide),
   (alarm_item_validation_amended.2.2.2.2.2.2.2.1) 99 0 (List.replicate 7 false)
     (some true) "" none none none (by omega),
   (alarm_item_validation_amended.2.2.2.2.2.2.2.2.2.1) 7 0 [true]
     (some true) "" none none none (by decide),
   (alarm_item_validation_amended.2.2.2.2.2.2.2.2.2.2.1) 7 0 (List.replicate 7 false)
     (some true) "" (-3) none none (by omega)⟩

/-! ### C10: `diff_alarm` shifts the weekly trigger instants -/

/-- Membership in the trigger-instant list. -/
theorem mem_instants (a : AlarmItem) (t : Int) :
    t ∈ instants a ↔ ∃ d, d < 7 ∧ a.repeatAt d = true ∧
      t = (d : Int) * 1440 + (a.hour : Int) * 60 + (a.minute : Int) := by
  simp only [instants, List.mem_filterMap, List.mem_range]
  constructor
  · rintro ⟨d, hd, hf⟩
    by_cases hrep : a.repeatAt d = true
    · rw [if_pos hrep] at hf
      exact ⟨d, hd, hrep, (Option.some.inj hf).symm⟩
    · rw [if_neg hrep] at hf
      exact absurd hf (by simp)
  · rintro ⟨d, hd, hrep, ht⟩
    exact ⟨d, hd, by rw [if_pos hrep, ht]⟩

theorem mk_valid7 (h m : Int) (d0 d1 d2 d3 d4 d5 d6 : Bool) (e : Bool) (lbl : String)
    (h0 : 0 ≤ h) (h1 : h < 24) (m0 : 0 ≤ m) (m1 : m < 60) :
    AlarmItem.new h m [d0, d1, d2, d3, d4, d5, d6] (some e) lbl none none none =
      some { id_ := none, hour := h.toNat, minute := m.toNat,
             monday := d0, tuesday := d1, wednesday := d2, thursday := d3,
             friday := d4, saturday := d5, sunday := d6,
             enabled := e, label := lbl, timestamp := none, station_id := none } := by
  unfold AlarmItem.new
  simp [AlarmItem.set_hour, AlarmItem.set_minute, AlarmItem.set_repeat, AlarmItem.set_enabled,
    AlarmItem.set_label, AlarmItem.blank, AlarmItem.repeatList, h0, h1, m0, m1,
    Int.toNat_of_nonneg h0, Int.toNat_of_nonneg m0, List.getD]

/-- The trigger-instant sets of two valid records related by a day rotation
(`ed` days, `ed` in -1..1) and a matching time shift differ exactly by `dm`
minutes modulo the 10080-minute week. -/
theorem instants_shift (a b : AlarmItem) (dm ed : Int)
    (hah : a.hour ≤ 23) (ham : a.minute ≤ 59) (hbh : b.hour ≤ 23) (hbm : b.minute ≤ 59)
    (hed : ed = -1 ∨ ed = 0 ∨ ed = 1)
    (hsum : (b.hour : Int) * 60 + (b.minute : Int) =
      (a.hour : Int) * 60 + (a.minute : Int) + dm - 1440 * ed)
    (hrot : ∀ d, d < 7 → b.repeatAt d = a.repeatAt ((d + (7 - ed).toNat) % 7)) :
    ∀ t : Int, t ∈ instants b ↔ ∃ s ∈ instants a, t = (s + dm) % 10080 := by
  intro t
  rw [mem_instants]
  constructor
  · rintro ⟨d, hd7, hflag, ht⟩
    have hd' : (d + (7 - ed).toNat) % 7 < 7 := Nat.mod_lt _ (by omega)
    refine ⟨(((d + (7 - ed).toNat) % 7 : Nat) : Int) * 1440 +
      (a.hour : Int) * 60 + (a.minute : Int), ?_, ?_⟩
    · rw [mem_instants]
      refine ⟨(d + (7 - ed).toNat) % 7, hd', ?_, rfl⟩
      rw [← hrot d hd7]
      exact hflag
    · rcases hed with rfl | rfl | rfl <;>
      · simp only [show ((7:Int) - (-1)).toNat = 8 from rfl,
          show ((7:Int) - 0).toNat = 7 from rfl,
          show ((7:Int) - 1).toNat = 6 from rfl] at *
        omega
  · rintro ⟨s, hs, heq⟩
    rw [mem_instants] at hs
    obtain ⟨d', hd'7, hflag', hseq⟩ := hs
    have hdlt : (d' + (7 + ed).toNat) % 7 < 7 := Nat.mod_lt _ (by omega)
    refine ⟨(d' + (7 + ed).toNat) % 7, hdlt, ?_, ?_⟩
    · rw [hrot _ hdlt]
      have : ((d' + (7 + ed).toNat) % 7 + (7 - ed).toNat) % 7 = d' := by
        rcases hed with rfl | rfl | rfl <;>
        · simp only [show ((7:Int) - (-1)).toNat = 8 from rfl,
            show ((7:Int) + (-1)).toNat = 6 from rfl,
            show ((7:Int) - 0).toNat = 7 from rfl,
            show ((7:Int) + 0).toNat = 7 from rfl,
            show ((7:Int) - 1).toNat = 6 from rfl,
            show ((7:Int) + 1).toNat = 8 from rfl] at *
          omega
      rw [this]
      exact hflag'
    · rcases hed with rfl | rfl | rfl <;>
      · simp only [show ((7:Int) - (-1)).toNat = 8 from rfl,
          show ((7:Int) + (-1)).toNat = 6 from rfl,
          show ((7:Int) - 0).toNat = 7 from rfl,
          show ((7:Int) + 0).toNat = 7 from rfl,
          show ((7:Int) - 1).toNat = 6 from rfl,
          show ((7:Int) + 1).toNat = 8 from rfl] at *
        omega

/-- Packaging of one `diff_alarm` branch: once the branch is known to produce
the constructor call with in-range time, rotated flags and day offset `ed`, the
claim's conclusion follows. -/
theorem diff_conclusion (a : AlarmItem) (dm nh nm ed : Int)
    (b0 b1 b2 b3 b4 b5 b6 : Bool) (lbl : String)
    (hah : a.hour ≤ 23) (ham : a.minute ≤ 59)
    (hnh0 : 0 ≤ nh) (hnh1 : nh < 24) (hnm0 : 0 ≤ nm) (hnm1 : nm < 60)
    (hed : ed = -1 ∨ ed = 0 ∨ ed = 1)
    (hsum : nh * 60 + nm = (a.hour : Int) * 60 + (a.minute : Int) + dm - 1440 * ed)
    (hrot : ∀ d, d < 7 →
      ([b0, b1, b2, b3, b4, b5, b6].getD d false) =
        a.repeatAt ((d + ((7 : Int) - ed).toNat) % 7))
    (heq : AlarmItem.diff_alarm a dm =
      AlarmItem.new nh nm [b0, b1, b2, b3, b4, b5, b6] (some a.enabled) lbl none none none) :
    ∃ b, AlarmItem.diff_alarm a dm = some b ∧ b.enabled = a.enabled ∧ b.id_ = none ∧
      b.timestamp = none ∧
      ∀ t : Int, t ∈ instants b ↔ ∃ s ∈ instants a, t = (s + dm) % 10080 := by
  rw [heq, mk_valid7 nh nm b0 b1 b2 b3 b4 b5 b6 a.enabled lbl hnh0 hnh1 hnm0 hnm1]
  refine ⟨_, rfl, rfl, rfl, rfl, ?_⟩
  apply instants_shift a _ dm ed hah ham
  · show nh.toNat ≤ 23
    omega
  · show nm.toNat ≤ 59
    omega
  · exact hed
  · show (nh.toNat : Int) * 60 + (nm.toNat : Int) = _
    rw [Int.toNat_of_nonneg hnh0, Int.toNat_of_nonneg hnm0]
    exact hsum
  · intro d hd
    show ([b0, b1, b2, b3, b4, b5, b6].getD d false) = _
    exact hrot d hd

/-- Case analysis over the minute/hour normalisation branches of `diff_alarm`:
every in-range shift yields an alarm whose instants are the original's shifted
by `dm` modulo 10080. -/
theorem diff_main (a : AlarmItem) (dm : Int)
    (hah : a.hour ≤ 23) (ham : a.minute ≤ 59) (hr : -60 < dm ∧ dm < 60) :
    ∃ b, AlarmItem.diff_alarm a dm = some b ∧ b.enabled = a.enabled ∧ b.id_ = none ∧
      b.timestamp = none ∧
      ∀ t : Int, t ∈ instants b ↔ ∃ s ∈ instants a, t = (s + dm) % 10080 := by
  have hh' : ((a.hour : Int)) ≤ 23 := by exact_mod_cast hah
  have hm' : ((a.minute : Int)) ≤ 59 := by exact_mod_cast ham
  have hh0 : (0 : Int) ≤ (a.hour : Int) := Int.natCast_nonneg _
  have hm0 : (0 : Int) ≤ (a.minute : Int) := Int.natCast_nonneg _
  set lbl := a.label ++ " (Alarm " ++ AlarmItem.idStr a.id_ ++ " " ++
    AlarmItem.signedStr dm ++ "min)" with hlbl
  by_cases c1 : 60 ≤ (a.minute : Int) + dm
  · by_cases d1 : 24 ≤ (a.hour : Int) + 1
    · -- minute overflow, hour overflow (h = 23): ed = 1, rotate right
      have heq : AlarmItem.diff_alarm a dm =
          AlarmItem.new (((a.hour : Int) + 1) % 24) (((a.minute : Int) + dm) % 60)
            [a.sunday, a.monday, a.tuesday, a.wednesday, a.thursday, a.friday, a.saturday]
            (some a.enabled) lbl none none none := by
        unfold AlarmItem.diff_alarm
        rw [if_neg (not_not_intro hr)]
        simp only [c1, d1, if_true, iff_true, AlarmItem.repeatList]
        norm_num
      exact diff_conclusion a dm (((a.hour : Int) + 1) % 24) (((a.minute : Int) + dm) % 60) 1
        a.sunday a.monday a.tuesday a.wednesday a.thursday a.friday a.saturday lbl
        hah ham (by omega) (by omega) (by omega) (by omega) (Or.inr (Or.inr rfl))
        (by omega)
        (by intro d hd; interval_cases d <;>
          simp [AlarmItem.repeatAt, AlarmItem.repeatList, List.getD])
        heq
    · -- minute overflow, hour stays: ed = 0
      have d2 : ¬((a.hour : Int) + 1 < 0) := by omega
      have heq : AlarmItem.diff_alarm a dm =
          AlarmItem.new ((a.hour : Int) + 1) (((a.minute : Int) + dm) % 60)
            [a.monday, a.tuesday, a.wednesday, a.thursday, a.friday, a.saturday, a.sunday]
            (some a.enabled) lbl none none none := by
        unfold AlarmItem.diff_alarm
        rw [if_neg (not_not_intro hr)]
        simp only [c1, d1, d2, if_true, iff_true, if_false, AlarmItem.repeatList]
        norm_num
      exact diff_conclusion a dm ((a.hour : Int) + 1) (((a.minute : Int) + dm) % 60) 0
        a.monday a.tuesday a.wednesday a.thursday a.friday a.saturday a.sunday lbl
        hah ham (by omega) (by omega) (by omega) (by omega) (Or.inr (Or.inl rfl))
        (by omega)
        (by intro d hd; interval_cases d <;>
          simp [AlarmItem.repeatAt, AlarmItem.repeatList, List.getD])
        heq
  · by_cases c2 : (a.minute : Int) + dm < 0
    · -- minute underflow: eh = -1
      have d1 : ¬(24 ≤ (a.hour : Int) + -1) := by omega
      by_cases d2 : (a.hour : Int) + -1 < 0
      · -- hour underflow (h = 0): ed = -1, rotate left
        have heq : AlarmItem.diff_alarm a dm =
            AlarmItem.new ((a.hour : Int) + -1 + 24) ((a.minute : Int) + dm + 60)
              [a.tuesday, a.wednesday, a.thursday, a.friday, a.saturday, a.sunday, a.monday]
              (some a.enabled) lbl none none none := by
          unfold AlarmItem.diff_alarm
          rw [if_neg (not_not_intro hr)]
          simp only [c1, c2, d1, d2, if_true, iff_true, if_false, AlarmItem.repeatList]
          norm_num
        exact diff_conclusion a dm ((a.hour : Int) + -1 + 24) ((a.minute : Int) + dm + 60) (-1)
          a.tuesday a.wednesday a.thursday a.friday a.saturday a.sunday a.monday lbl
          hah ham (by omega) (by omega) (by omega) (by omega) (Or.inl rfl)
          (by omega)
          (by intro d hd; interval_cases d <;>
            simp [AlarmItem.repeatAt, AlarmItem.repeatList, List.getD])
          heq
      · -- hour stays: ed = 0
        have heq : AlarmItem.diff_alarm a dm =
            AlarmItem.new ((a.hour : Int) + -1) ((a.minute : Int) + dm + 60)
              [a.monday, a.tuesday, a.wednesday, a.thursday, a.friday, a.saturday, a.sunday]
              (some a.enabled) lbl none none none := by
          unfold AlarmItem.diff_alarm
          rw [if_neg (not_not_intro hr)]
          simp only [c1, c2, d1, d2, if_true, iff_true, if_false, AlarmItem.repeatList]
          norm_num
        exact diff_conclusion a dm ((a.hour : Int) + -1) ((a.minute : Int) + dm + 60) 0
          a.monday a.tuesday a.wednesday a.thursday a.friday a.saturday a.sunday lbl
          hah ham (by omega) (by omega) (by omega) (by omega) (Or.inr (Or.inl rfl))
          (by omega)
          (by intro d hd; interval_cases d <;>
            simp [AlarmItem.repeatAt, AlarmItem.repeatList, List.getD])
          heq
    · -- minute in range: eh = 0, hour unchanged, ed = 0
      have d1 : ¬(24 ≤ (a.hour : Int) + 0) := by omega
      have d2 : ¬((a.hour : Int) + 0 < 0) := by omega
      have heq : AlarmItem.diff_alarm a dm =
          AlarmItem.new ((a.hour : Int) + 0) ((a.minute : Int) + dm)
            [a.monday, a.tuesday, a.wednesday, a.thursday, a.friday, a.saturday, a.sunday]
            (some a.enabled) lbl none none none := by
        unfold AlarmItem.diff_alarm
        rw [if_neg (not_not_intro hr)]
        simp only [c1, c2, d1, d2, if_true, iff_true, if_false, AlarmItem.repeatList]
        norm_num
      exact diff_conclusion a dm ((a.hour : Int) + 0) ((a.minute : Int) + dm) 0
        a.monday a.tuesday a.wednesday a.thursday a.friday a.saturday a.sunday lbl
        hah ham (by omega) (by omega) (by omega) (by omega) (Or.inr (Or.inl rfl))
        (by omega)
        (by intro d hd; interval_cases d <;>
          simp [AlarmItem.repeatAt, AlarmItem.repeatList, List.getD])
        heq

/-- C10: for a valid alarm and an integer shift in [-59, 59], `diff_alarm`
returns a new alarm whose set of weekly trigger instants is the original's
shifted by the given minutes modulo 10080 (day flags rotated across midnight),
with the same enabled state and id and timestamp unset; an out-of-range shift
returns `None`.  (A non-integer shift is outside this integer-typed embedding;
Python rejects it through the same guard.) -/
theorem diff_alarm_shifts_instants (a : AlarmItem) (dm : Int)
    (hah : a.hour ≤ 23) (ham : a.minute ≤ 59) :
    ((-60 < dm ∧ dm < 60) → ∃ b, AlarmItem.diff_alarm a dm = some b ∧
      b.enabled = a.enabled ∧ b.id_ = none ∧ b.timestamp = none ∧
      ∀ t : Int, t ∈ instants b ↔ ∃ s ∈ instants a, t = (s + dm) % 10080) ∧
    (¬(-60 < dm ∧ dm < 60) → AlarmItem.diff_alarm a dm = none) := by
  constructor
  · intro hr
    exact diff_main a dm hah ham hr
  · intro hbad
    unfold AlarmItem.diff_alarm
    rw [if_pos hbad]

/-- Witness for C10: shifting the active 07:00 Monday alarm by -1 minute. -/
theorem diff_alarm_shifts_instants_witness :
    ∃ b, AlarmItem.diff_alarm (mkActive 1) (-1) = some b ∧
      b.enabled = (mkActive 1).enabled ∧ b.id_ = none ∧ b.timestamp = none ∧
      ∀ t : Int, t ∈ instants b ↔ ∃ s ∈ instants (mkActive 1), t = (s + (-1)) % 10080 :=
  (diff_alarm_shifts_instants (mkActive 1) (-1) (by decide) (by decide)).1 (by decide)

end LightUpPi
